import Mathlib

/-!
Verification of the turn-resolution engine of the multi-agent grid sandbox
(`sandbox_simulation.py` and its siblings).

The Python source is shallowly embedded: Python dicts holding actions become
the `ActionDict` structure (absent keys are `none`), machine integers are
`Int`/`Nat`, raising code returns `Except` (the error value carries the
mutated simulation state left behind by the raise, mirroring Python object
state after an exception), and the external LLM oracle is a parameter
supplying one raw response string per agent slot.  Diagnostic-only fields
that no logic reads (the serialized `prompt` and raw `response` strings held
in debug entries) are not modelled.
-/

/-- A JSON value, as produced by `json.loads`. -/
inductive Json where
  | null
  | bool (b : Bool)
  | num (n : Int)
  | str (s : String)
  | arr (xs : List Json)
  | obj (kvs : List (String × Json))

/-- A parsed JSON object: the key/value pairs of a top-level JSON dict. -/
abbrev JsonObj := List (String × Json)

/-- `data.get(key)` on a parsed JSON dict.  A JSON `null` value is Python
`None`, indistinguishable from a missing key for `.get`, so it collapses to
`none`. -/
def pyGet (kvs : JsonObj) (key : String) : Option Json :=
  match kvs.lookup key with
  | some Json.null => none
  | v => v

/-- Python `x == "s"` for `x` an optional JSON value (`None` compares unequal
to every string, as does any non-string JSON value). -/
def isStrEq (v : Option Json) (s : String) : Bool :=
  match v with
  | some (Json.str t) => t == s
  | _ => false

/-- Python `isinstance(x, str)` for an optional JSON value. -/
def isStr (v : Option Json) : Bool :=
  match v with
  | some (Json.str _) => true
  | _ => false

/-- The string value of an optional JSON value, when it is a string. -/
def asStr (v : Option Json) : Option String :=
  match v with
  | some (Json.str t) => some t
  | _ => none

/-- An action dict (`ActionDict = Dict[str, str]` in the source).  Every key
the engine ever reads is a field; a missing key is `none`. -/
structure ActionDict where
  action : String
  direction : Option String := none
  target : Option String := none
  message : Option String := none
  notes : Option String := none
  target_title : Option String := none
  deriving DecidableEq, Repr

/-- `{"action": "wait"}` -/
def waitA : ActionDict := { action := "wait" }

/-- `{"action": "move", "direction": d}` -/
def moveA (d : String) : ActionDict := { action := "move", direction := some d }

/-- `{"action": "talk", "target": t, "message": m}` -/
def talkA (t m : String) : ActionDict :=
  { action := "talk", target := some t, message := some m }

/-- `re.search(r"\x7b.*\x7d", raw, re.DOTALL)`: match from the first
opening brace to the last closing brace after it.  Returns the suffix of
the character list starting at the first opening brace, or `none`. -/
def fromFirstOpen : List Char → Option (List Char)
  | [] => none
  | c :: cs => if c = '\x7b' then some (c :: cs) else fromFirstOpen cs

/-- The prefix of `l` ending at the last closing brace, or `none` if `l`
holds no closing brace. -/
def upToLastClose (l : List Char) : Option (List Char) :=
  match l.reverse.dropWhile (fun c => c ≠ '\x7d') with
  | [] => none
  | rest => some rest.reverse

/-- `_extract_json_block`: the leftmost-greedy match of `\x7b.*\x7d` with
DOTALL, i.e. the substring from the first `\x7b` to the last `\x7d` following
it (the match needs a `\x7d` strictly after the opening brace). -/
def extract_json_block (raw : String) : Option String :=
  match fromFirstOpen raw.toList with
  | none => none
  | some suffix =>
    match upToLastClose suffix with
    | none => none
    | some block =>
      -- the regex needs at least one character (the closing brace) after `.*`,
      -- so a lone "\x7b" prefix with the only `\x7d` before it does not match;
      -- `upToLastClose` keeps the opening brace, so a match has ≥ 2 chars.
      if block.length < 2 then none else some (String.mk block)

/-- `_parse_action`: decode free-form oracle text into an action dict.
`jparse` stands for `json.loads` restricted to the extracted `\x7b...\x7d`
block: `none` is a `JSONDecodeError`, `some kvs` a successfully parsed
top-level object. -/
def parse_action (raw : String) (jparse : String → Option JsonObj) : ActionDict :=
  match extract_json_block raw with
  | none => { action := "wait" }
  | some block =>
    match jparse block with
    | none => { action := "wait" }
    | some data =>
      let action := pyGet data "action"
      if ¬ (isStrEq action "move" ∨ isStrEq action "talk" ∨ isStrEq action "wait") then
        { action := "wait" }
      else if isStrEq action "move" then
        let direction := pyGet data "direction"
        if ¬ (isStrEq direction "up" ∨ isStrEq direction "down" ∨
              isStrEq direction "left" ∨ isStrEq direction "right") then
          { action := "wait" }
        else
          { action := "move", direction := asStr direction }
      else if isStrEq action "talk" then
        let target := pyGet data "target"
        let message := pyGet data "message"
        if ¬ (isStr target ∧ isStr message) then
          { action := "wait" }
        else
          { action := "talk", target := asStr target, message := asStr message }
      else
        { action := "wait" }

/-- `_move_delta`, the direction table. -/
def move_delta (direction : String) : Int × Int :=
  if direction = "up" then (0, -1)
  else if direction = "down" then (0, 1)
  else if direction = "left" then (-1, 0)
  else (1, 0)

/-- The iteration order of the direction dict in `_legal_actions`. -/
def directionOrder : List String := ["up", "down", "left", "right"]

/-- One agent of the simulation.  `isPlayer` stands for
`controller is None` (the interactively controlled slot). -/
structure AgentState where
  name : String
  isPlayer : Bool
  x : Int
  y : Int
  inbox : Option (String × String) := none   -- {"from": _, "message": _}
  last_action : Option ActionDict := none
  deriving DecidableEq, Repr

/-- `_is_adjacent`: Manhattan distance exactly 1. -/
def is_adjacent (a b : AgentState) : Bool :=
  (a.x - b.x).natAbs + (a.y - b.y).natAbs == 1

/-- Whether some agent other than `name` sits on `(x, y)` — the occupancy
test `any(other.name != agent.name and other.x == new_x and ...)`. -/
def occupied_by_other (agents : List AgentState) (name : String) (x y : Int) : Bool :=
  agents.any (fun other => other.name ≠ name ∧ other.x = x ∧ other.y = y)

/-- Whether a move from `agent` in `direction` ends in bounds and on a cell
not occupied by another agent — the guard of the move loop of
`_legal_actions`. -/
def move_open (agent : AgentState) (agents : List AgentState) (grid_size : Int)
    (direction : String) : Bool :=
  let d := move_delta direction
  let new_x := agent.x + d.1
  let new_y := agent.y + d.2
  decide (0 ≤ new_x) && decide (new_x < grid_size) &&
  decide (0 ≤ new_y) && decide (new_y < grid_size) &&
  ! occupied_by_other agents agent.name new_x new_y

/-- `{"action": "talk", "target": t}` — a talk entry of a legal action set
(no message yet). -/
def talkLegal (t : String) : ActionDict := { action := "talk", target := some t }

/-- `_legal_actions`: start from `[wait]`, append one move per open
direction (in dict order up, down, left, right), then one talk per other
adjacent agent (in agent-list order). -/
def legal_actions (agent : AgentState) (agents : List AgentState)
    (grid_size : Int) : List ActionDict :=
  let legal :=
    directionOrder.foldl
      (fun acc direction =>
        if move_open agent agents grid_size direction then acc ++ [moveA direction]
        else acc)
      [waitA]
  agents.foldl
    (fun acc other =>
      if other.name ≠ agent.name ∧ is_adjacent agent other then
        acc ++ [talkLegal other.name]
      else acc)
    legal

/-- `SandboxSimulation._enforce_legality` exactly as written in
`src/backend/src/sandbox_simulation.py` (lines 452–474).  The final
`if action.get("target") not in allowed` check sits at method-body
indentation, OUTSIDE the `elif` branch, so it also runs for move and wait
actions; for a wait action the local `allowed` was never assigned and
Python raises `UnboundLocalError`, modelled as `Except.error`. -/
def enforce_legality (action : ActionDict) (legal : List ActionDict)
    (agent_name : String) : Except String ActionDict :=
  if action.action = "move" then
    let allowed := (legal.filter (fun e => e.action = "move")).filterMap (·.direction)
    if ¬ (∃ d ∈ allowed, action.direction = some d) then
      Except.ok { action := "wait",
                  notes := some ("Illegal move rejected for " ++ agent_name) }
    else
      -- dedented trailing check: `allowed` still holds the move directions
      if ¬ (∃ t ∈ allowed, action.target = some t) then
        Except.ok { action := "wait",
                    notes := some ("Illegal talk rejected for " ++ agent_name) }
      else Except.ok action
  else if action.action = "talk" then
    let allowed := (legal.filter (fun e => e.action = "talk")).filterMap (·.target)
    if ¬ (∃ t ∈ allowed, action.target = some t) then
      Except.ok { action := "wait",
                  notes := some ("Illegal talk rejected for " ++ agent_name) }
    else Except.ok action
  else
    -- wait (or any other) action: `allowed` is unbound at the dedented check
    Except.error "UnboundLocalError: local variable allowed referenced before assignment"

/-- `SandboxSimulation._enforce_legality` of the sibling copy
`src/backend/src/backend/sandbox_simulation.py` (lines 296–318), where the
target check is correctly nested inside the talk branch. -/
def enforce_legality_nested (action : ActionDict) (legal : List ActionDict)
    (agent_name : String) : ActionDict :=
  if action.action = "move" then
    let allowed := (legal.filter (fun e => e.action = "move")).filterMap (·.direction)
    if ¬ (∃ d ∈ allowed, action.direction = some d) then
      { action := "wait", notes := some ("Illegal move rejected for " ++ agent_name) }
    else action
  else if action.action = "talk" then
    let allowed := (legal.filter (fun e => e.action = "talk")).filterMap (·.target)
    if ¬ (∃ t ∈ allowed, action.target = some t) then
      { action := "wait", notes := some ("Illegal talk rejected for " ++ agent_name) }
    else action
  else action

/-- Python `entry.get(k) == v` comparing an optional string field of a legal
entry with an arbitrary optional JSON value (`None == None` is true). -/
def jsonEqOptStr (v : Option Json) (s : Option String) : Bool :=
  match s, v with
  | some s, some (Json.str t) => s == t
  | none, none => true
  | _, _ => false

/-- `SandboxSimulation._validate_player_action`.  The player-supplied value
is arbitrary JSON; a non-dict, an unsupported action string, or an illegal
move direction / talk target raises `ValueError` (`Except.error`). -/
def validate_player_action (action : Json) (legal : List ActionDict)
    (agent_name : String) : Except String ActionDict :=
  match action with
  | Json.obj kvs =>
    let choice := pyGet kvs "action"
    if isStrEq choice "move" then
      let direction := pyGet kvs "direction"
      match legal.find? (fun e => e.action == "move" && jsonEqOptStr direction e.direction) with
      | none => Except.error ("Direction not allowed for " ++ agent_name ++ ".")
      | some _ => Except.ok { action := "move", direction := asStr direction }
    else if isStrEq choice "talk" then
      let target := pyGet kvs "target"
      match legal.find? (fun e => e.action == "talk" && jsonEqOptStr target e.target) with
      | none => Except.error "Target not available for talk."
      | some entry =>
        let message := pyGet kvs "message"
        match asStr message with
        | some m =>
          if m.trim = "" then
            let aliasName := match entry.target_title with
              | some t => if t = "" then (asStr target).getD "" else t
              | none => (asStr target).getD ""
            Except.ok { action := "talk", target := asStr target,
                        message := some ("Hey " ++ aliasName ++ ", let\x27s keep moving!") }
          else
            Except.ok { action := "talk", target := asStr target, message := some m }
        | none =>
          let aliasName := match entry.target_title with
            | some t => if t = "" then (asStr target).getD "" else t
            | none => (asStr target).getD ""
          Except.ok { action := "talk", target := asStr target,
                      message := some ("Hey " ++ aliasName ++ ", let\x27s keep moving!") }
    else if isStrEq choice "wait" || choice.isNone then
      Except.ok { action := "wait" }
    else
      Except.error "Unsupported player action."
  | _ => Except.error "Player action must be a JSON object."

example : enforce_legality waitA [waitA] "agent1" =
    Except.error "UnboundLocalError: local variable allowed referenced before assignment" := rfl

example : enforce_legality (moveA "up") [waitA, moveA "up"] "agent1" =
    Except.ok { action := "wait", notes := some "Illegal talk rejected for agent1" } := rfl

example : enforce_legality (talkA "agent2" "hi") [waitA, talkLegal "agent2"] "agent1" =
    Except.ok (talkA "agent2" "hi") := rfl

/-- One entry of the conversation log: `{"from", "to", "message", "turn"}`. -/
structure ConversationEntry where
  msg_from : String
  msg_to : String
  message : String
  turn : Nat
  deriving DecidableEq, Repr

/-- One per-agent debug trace entry (the serialized `prompt` and raw
`response` strings are diagnostic-only and not modelled). -/
structure DebugEntry where
  agent : String
  legal_actions : List ActionDict
  action : Option ActionDict := none
  notes : Option String := none
  deriving DecidableEq, Repr

/-- `self.pending_player`: the suspended slot index plus its frozen legal
action list. -/
structure PendingPlayer where
  agent_index : Nat
  legal_actions : List ActionDict
  deriving DecidableEq, Repr

/-- The observable snapshot (`SandboxSimulation.snapshot`). -/
structure Snapshot where
  turn : Nat
  gridSize : Int
  agents : List (String × Int × Int)
  messages : List ConversationEntry
  deriving DecidableEq, Repr

/-- One sealed turn record, as appended to `debug_history`. -/
structure TurnRecord where
  turn : Nat
  snapshot : Snapshot
  turnMessages : List ConversationEntry
  debug : List DebugEntry
  deriving DecidableEq, Repr

/-- The mutable state of a `SandboxSimulation` (rng, backend selection and
persona flavor text aside; `agent_profiles` keeps only each agent\x27s display
title, the one profile field the engine logic reads). -/
structure Simulation where
  num_agents : Nat
  grid_size : Int
  player_agent_name : Option String
  agent_profiles : List (String × String)
  pending_player : Option PendingPlayer
  active_turn_messages : Option (List ConversationEntry)
  active_turn_debug : Option (List DebugEntry)
  turn : Nat
  agents : List AgentState
  conversation_log : List ConversationEntry
  debug_history : List TurnRecord
  deriving DecidableEq, Repr

/-- `SandboxSimulation.snapshot` (traits/backend flavor fields dropped). -/
def Simulation.snapshot (sim : Simulation) : Snapshot :=
  { turn := sim.turn, gridSize := sim.grid_size,
    agents := sim.agents.map (fun a => (a.name, a.x, a.y)),
    messages := sim.conversation_log }

/-- What a completed `step`/`apply_player_action` call hands back: a sealed
turn record, or a `requiresPlayer` payload naming the suspended agent and
its frozen legal actions. -/
inductive StepOutcome where
  | sealed (record : TurnRecord)
  | pending (agent : String) (legal : List ActionDict)
  deriving DecidableEq, Repr

/-- `SandboxSimulation._finalise_turn`: seal the accumulated turn into
`debug_history` and drop the active-turn accumulators. -/
def finalise_turn (sim : Simulation) : TurnRecord × Simulation :=
  let record : TurnRecord :=
    { turn := sim.turn, snapshot := sim.snapshot,
      turnMessages := sim.active_turn_messages.getD [],
      debug := sim.active_turn_debug.getD [] }
  (record,
   { sim with debug_history := sim.debug_history ++ [record],
              active_turn_messages := none, active_turn_debug := none })

/-- Write `notes` on the debug entry at index `i` (Python mutates the dict
referenced by `debug_entry`). -/
def setNotes (dbg : List DebugEntry) (i : Nat) (s : String) : List DebugEntry :=
  match dbg[i]? with
  | none => dbg
  | some e => dbg.set i { e with notes := some s }

/-- Write a note on the active debug entry at index `dbgIdx`. -/
def withNote (sim : Simulation) (dbgIdx : Nat) (s : String) : Simulation :=
  { sim with active_turn_debug := sim.active_turn_debug.map (fun dbg => setNotes dbg dbgIdx s) }

/-- `SandboxSimulation._apply_action`: apply one validated action for the
agent at `agentIdx`, writing its outcome note on the debug entry at
`dbgIdx` (the entry Python holds by reference). -/
def apply_action (sim : Simulation) (agentIdx dbgIdx : Nat)
    (action : ActionDict) : Simulation :=
  match sim.active_turn_messages with
  | none => sim
  | some msgs =>
    match sim.agents[agentIdx]? with
    | none => sim
    | some agent =>
      if action.action = "move" then
        match action.direction with
        | some direction =>
          if direction ∈ directionOrder then
            let d := move_delta direction
            let new_x := agent.x + d.1
            let new_y := agent.y + d.2
            let blocked :=
              decide (new_x < 0) || decide (new_x ≥ sim.grid_size) ||
              decide (new_y < 0) || decide (new_y ≥ sim.grid_size) ||
              occupied_by_other sim.agents agent.name new_x new_y
            if blocked then
              withNote sim dbgIdx "Move blocked; stayed in place."
            else
              let moved := { agent with x := new_x, y := new_y }
              let sim := { sim with agents := sim.agents.set agentIdx moved }
              withNote sim dbgIdx
                ("Moved to (" ++ toString new_x ++ ", " ++ toString new_y ++ ").")
          else
            withNote sim dbgIdx "Move direction missing; waited instead."
        | none =>
          withNote sim dbgIdx "Move direction missing; waited instead."
      else if action.action = "talk" then
        match action.target, action.message with
        | some target_name, some message =>
          match sim.agents.findIdx? (fun a => a.name == target_name) with
          | some t =>
            match sim.agents[t]? with
            | some target_agent =>
              if is_adjacent agent target_agent then
                let payload : ConversationEntry :=
                  { msg_from := agent.name, msg_to := target_name,
                    message := message, turn := sim.turn }
                let tgt2 := { target_agent with inbox := some (agent.name, message) }
                let sim :=
                  { sim with
                    agents := sim.agents.set t tgt2,
                    active_turn_messages := some (msgs ++ [payload]),
                    conversation_log := sim.conversation_log ++ [payload] }
                withNote sim dbgIdx ("Spoke to " ++ target_name ++ ".")
              else
                withNote sim dbgIdx "Talk target invalid or not adjacent."
            | none => withNote sim dbgIdx "Talk target invalid or not adjacent."
          | none => withNote sim dbgIdx "Talk target invalid or not adjacent."
        | _, _ => withNote sim dbgIdx "Talk target invalid or not adjacent."
      else
        withNote sim dbgIdx "Waited."

/-- Attach `target_title` display names to the talk entries of a legal
action list, as done at the top of each slot of `_continue_turn_from`. -/
def decorate (profiles : List (String × String)) (legal : List ActionDict) :
    List ActionDict :=
  legal.map (fun e =>
    if e.action = "talk" then
      match e.target with
      | some t => { e with target_title := some ((profiles.lookup t).getD t) }
      | none => e
    else e)

/-- Result of processing one agent slot: continue with the next slot, or
suspend awaiting the interactive participant. -/
inductive SlotResult where
  | cont (sim : Simulation)
  | suspend (outcome : StepOutcome) (sim : Simulation)

/-- Set the `action` field of the debug entry at index `i`. -/
def setDbgAction (dbg : List DebugEntry) (i : Nat) (a : ActionDict) :
    List DebugEntry :=
  match dbg[i]? with
  | none => dbg
  | some e => dbg.set i { e with action := some a }

/-- One iteration of the slot loop of `_continue_turn_from`: compute and
decorate the legal actions, consume the inbox, append a debug skeleton,
then either suspend (interactive agent) or decode, enforce and apply the
oracle decision.  `responses idx` is the oracle\x27s raw reply for slot
`idx`; `jparse` stands for `json.loads`.  An `UnboundLocalError` escaping
`_enforce_legality` propagates as `Except.error` carrying the state left at
the raise. -/
def process_slot (sim : Simulation) (responses : Nat → String)
    (jparse : String → Option JsonObj) (idx : Nat) :
    Except (String × Simulation) SlotResult :=
  match sim.agents[idx]? with
  | none => Except.error ("IndexError: agents", sim)
  | some agent =>
    let legal := decorate sim.agent_profiles
      (legal_actions agent sim.agents sim.grid_size)
    let sim := { sim with agents := sim.agents.set idx { agent with inbox := none } }
    let skeleton : DebugEntry := { agent := agent.name, legal_actions := legal }
    let dbg2 := sim.active_turn_debug.map (fun d => d ++ [skeleton])
    let sim := { sim with active_turn_debug := dbg2 }
    if agent.isPlayer then
      let pend : PendingPlayer := { agent_index := idx, legal_actions := legal }
      let sim := { sim with pending_player := some pend }
      Except.ok (SlotResult.suspend (StepOutcome.pending agent.name legal) sim)
    else
      let decision := parse_action (responses idx) jparse
      match enforce_legality decision legal agent.name with
      | Except.error e => Except.error (e, sim)
      | Except.ok act =>
        let ag2 := { (sim.agents[idx]?.getD agent) with last_action := some act }
        let sim := { sim with agents := sim.agents.set idx ag2 }
        let dbgIdx := (sim.active_turn_debug.getD []).length - 1
        let dbg3 := sim.active_turn_debug.map (fun d => setDbgAction d dbgIdx act)
        let sim := { sim with active_turn_debug := dbg3 }
        Except.ok (SlotResult.cont (apply_action sim idx dbgIdx act))

/-- The slot loop of `_continue_turn_from` over the remaining indices, sealing the
turn after the last slot. -/
def run_slots (responses : Nat → String) (jparse : String → Option JsonObj) :
    List Nat → Simulation → Except (String × Simulation) (StepOutcome × Simulation)
  | [], sim =>
    let r := finalise_turn sim
    Except.ok (StepOutcome.sealed r.1, r.2)
  | idx :: rest, sim =>
    match process_slot sim responses jparse idx with
    | Except.error e => Except.error e
    | Except.ok (SlotResult.suspend outcome sim) => Except.ok (outcome, sim)
    | Except.ok (SlotResult.cont sim) => run_slots responses jparse rest sim

/-- `SandboxSimulation._continue_turn_from`. -/
def continue_turn_from (responses : Nat → String)
    (jparse : String → Option JsonObj) (sim : Simulation) (start_index : Nat) :
    Except (String × Simulation) (StepOutcome × Simulation) :=
  if sim.active_turn_messages.isNone || sim.active_turn_debug.isNone then
    Except.error ("AssertionError", sim)
  else
    run_slots responses jparse ((List.range sim.agents.length).drop start_index) sim

/-- `SandboxSimulation.step`. -/
def step (responses : Nat → String) (jparse : String → Option JsonObj)
    (sim : Simulation) :
    Except (String × Simulation) (StepOutcome × Simulation) :=
  if sim.agents.isEmpty then
    Except.error ("Simulation not initialised. Call reset() first.", sim)
  else if sim.pending_player.isSome then
    Except.error ("Awaiting player action; resolve before advancing the turn.", sim)
  else
    let sim := { sim with turn := sim.turn + 1,
                          active_turn_messages := some [],
                          active_turn_debug := some [] }
    continue_turn_from responses jparse sim 0

/-- `SandboxSimulation.apply_player_action`.  Note the order of effects of
the source: `self.pending_player` is set to `None` BEFORE the supplied
action is validated, so a `ValueError` from `_validate_player_action`
leaves the simulation with no pending decision. -/
def apply_player_action (responses : Nat → String)
    (jparse : String → Option JsonObj) (sim : Simulation) (action : Json) :
    Except (String × Simulation) (StepOutcome × Simulation) :=
  match sim.pending_player with
  | none => Except.error ("No player action is pending.", sim)
  | some info =>
    if sim.active_turn_messages.isNone || sim.active_turn_debug.isNone then
      Except.error ("Internal turn state missing for player action.", sim)
    else
      let sim := { sim with pending_player := none }
      match sim.agents[info.agent_index]? with
      | none => Except.error ("IndexError: agents", sim)
      | some agent =>
        match validate_player_action action info.legal_actions agent.name with
        | Except.error e => Except.error (e, sim)
        | Except.ok validated =>
          let ag3 := { agent with last_action := some validated }
          let sim := { sim with agents := sim.agents.set info.agent_index ag3 }
          match (sim.active_turn_debug.getD [])[info.agent_index]? with
          | none => Except.error ("IndexError: debug", sim)
          | some entry =>
            let entry2 := { entry with action := some validated }
            let sim := { sim with active_turn_debug :=
                sim.active_turn_debug.map (fun d => d.set info.agent_index entry2) }
            let sim := apply_action sim info.agent_index info.agent_index validated
            continue_turn_from responses jparse sim (info.agent_index + 1)

/-- `SandboxSimulation.history` returns a copy of `debug_history`. -/
def history (sim : Simulation) : List TurnRecord := sim.debug_history

/-- The name `f"agent\x7bi+1\x7d"` of the agent at build index `i`. -/
def agent_name_of (i : Nat) : String := "agent" ++ Nat.repr (i + 1)

/-- `[f"agent\x7bi+1\x7d" for i in range(num_agents)]`. -/
def agent_names (n : Nat) : List String := (List.range n).map agent_name_of

/-- `[(x, y) for x in range(grid_size) for y in range(grid_size)]`. -/
def initial_cells (g : Int) : List (Int × Int) :=
  (List.range g.toNat).flatMap
    (fun x => (List.range g.toNat).map (fun y => (Int.ofNat x, Int.ofNat y)))

/-- `SandboxSimulation._initial_positions`, with the rng shuffle abstracted
into the `shuffled` argument (a permutation of `initial_cells`):
`zip` truncates at the shorter list, so surplus agents get no cell. -/
def initial_positions (shuffled : List (Int × Int)) (num_agents : Nat) :
    List (String × (Int × Int)) :=
  (agent_names num_agents).zip shuffled

/-- The display titles of the persona pool, in order. -/
def personasTitles : List String := ["Alex", "Blair", "Kai", "Mira", "Ren"]

/-- The `agent_profiles` name→title map built by `_build_controllers`
(cycling through the persona pool, the player slot overridden last). -/
def build_profiles (n : Nat) (player : Option String) : List (String × String) :=
  (List.range n).map (fun i =>
    let name := agent_name_of i
    if player = some name then (name, "Player")
    else (name, personasTitles.getD (i % 5) ""))

/-- Configuration fixed at construction time. -/
structure Config where
  num_agents : Nat
  grid_size : Int
  player_agent : Bool
  deriving DecidableEq, Repr

/-- Lexicographic code-point comparison of character lists (Python string
order, restricted to the code points agent names use). -/
def strLeAux : List Char → List Char → Bool
  | [], _ => true
  | _ :: _, [] => false
  | a :: as, b :: bs =>
    if a.toNat < b.toNat then true
    else if b.toNat < a.toNat then false
    else strLeAux as bs

/-- Python `<=` on strings. -/
def pyStrLe (a b : String) : Bool := strLeAux a.toList b.toList

/-- `SandboxSimulation.reset`: assign shuffled cells to the agents (in
build order), then create the agent list sorted lexicographically by name.
A `positions[name]` lookup for an agent that got no cell raises `KeyError`
(`Except.error`). -/
def player_name_of (cfg : Config) : Option String :=
  if cfg.player_agent then (agent_names cfg.num_agents).getLast? else none

def reset (cfg : Config) (shuffled : List (Int × Int)) :
    Except String Simulation :=
  let names := agent_names cfg.num_agents
  let player_name := player_name_of cfg
  let positions := names.zip shuffled
  let sortedNames := List.insertionSort (fun a b => pyStrLe a b = true) names
  match sortedNames.mapM (fun name => (positions.lookup name).map (fun p =>
      ({ name := name, isPlayer := player_name = some name,
         x := p.1, y := p.2 } : AgentState))) with
  | none => Except.error "KeyError"
  | some agents =>
    Except.ok
      { num_agents := cfg.num_agents, grid_size := cfg.grid_size,
        player_agent_name := player_name,
        agent_profiles := build_profiles cfg.num_agents player_name,
        pending_player := none, active_turn_messages := none,
        active_turn_debug := none, turn := 0, agents := agents,
        conversation_log := [], debug_history := [] }

/-- The three shapes `_parse_action` can produce. -/
def wellFormedAction (a : ActionDict) : Prop :=
  a = { action := "wait" } ∨
  (∃ d ∈ directionOrder, a = { action := "move", direction := some d }) ∨
  (∃ t m, a = { action := "talk", target := some t, message := some m })

/-! ## Injectivity of the decimal rendering used by agent naming -/

def digitVal (c : Char) : Nat := c.toNat - 48

def decVal (l : List Char) : Nat := l.foldl (fun acc c => acc * 10 + digitVal c) 0

/-! ## Concrete example states used by witnesses -/

/-- An uninitialised simulation (used only as an `Option.getD` default). -/
def fallbackSim : Simulation :=
  { num_agents := 0, grid_size := 0, player_agent_name := none, agent_profiles := [],
    pending_player := none, active_turn_messages := none, active_turn_debug := none,
    turn := 0, agents := [], conversation_log := [], debug_history := [] }

/-- A raw oracle reply holding an (empty) JSON block. -/
def rawB : String := "\x7b\x7d"

/-- A `json.loads` stand-in that parses every block as a talk to agent2. -/
def jpTalk : String → Option JsonObj := fun _ =>
  some [("action", Json.str "talk"), ("target", Json.str "agent2"),
        ("message", Json.str "hi")]

/-- Two autonomous agents on a 3×3 grid. -/
def cfgDuo : Config := { num_agents := 2, grid_size := 3, player_agent := false }

/-- One autonomous agent plus the interactive participant on a 3×3 grid. -/
def cfgPl : Config := { num_agents := 2, grid_size := 3, player_agent := true }

/-- The freshly reset two-autonomous-agent simulation (identity shuffle:
agent1 at (0,0), agent2 at (0,1), adjacent). -/
def simDuo : Simulation := ((reset cfgDuo (initial_cells 3)).toOption).getD fallbackSim

/-- The freshly reset player-enabled simulation. -/
def simReset : Simulation := ((reset cfgPl (initial_cells 3)).toOption).getD fallbackSim

/-- The player-enabled simulation suspended mid-turn awaiting the player
(slot 0 resolved as a legal talk, slot 1 is the interactive agent2). -/
def simPending : Simulation :=
  (((step (fun _ => rawB) jpTalk simReset).toOption).map Prod.snd).getD fallbackSim

/-- The pending-slot record of the concrete suspended state. -/
def pendInfo : PendingPlayer :=
  simPending.pending_player.getD { agent_index := 0, legal_actions := [] }

/-- The suspended agent of the concrete suspended state. -/
def pendAgent : AgentState :=
  (simPending.agents[pendInfo.agent_index]?).getD
    { name := "", isPlayer := false, x := 0, y := 0 }

/-- An agent moved in place to `(nx, ny)`. -/
def movedAgent (agent : AgentState) (nx ny : Int) : AgentState :=
  { agent with x := nx, y := ny }

/-- An agent whose inbox was overwritten with `(sender, message)`. -/
def inboxedAgent (target_agent : AgentState) (sender message : String) : AgentState :=
  { target_agent with inbox := some (sender, message) }

/-- The ConversationEntry recorded for a delivered talk. -/
def talkPayload (sender target message : String) (turn : Nat) : ConversationEntry :=
  { msg_from := sender, msg_to := target, message := message, turn := turn }

/-- A concrete mid-turn state for witnesses: two autonomous agents at
(0,0) and (0,1) with active turn accumulators. -/
def wAgent1 : AgentState := { name := "agent1", isPlayer := false, x := 0, y := 0 }

/-- Second witness agent. -/
def wAgent2 : AgentState := { name := "agent2", isPlayer := false, x := 0, y := 1 }

/-- Witness base simulation. -/
def wSimBase : Simulation :=
  { num_agents := 2, grid_size := 3, player_agent_name := none,
    agent_profiles := [("agent1", "Alex"), ("agent2", "Blair")],
    pending_player := none,
    active_turn_messages := some [],
    active_turn_debug := some [{ agent := "agent1", legal_actions := [] }],
    turn := 1,
    agents := [wAgent1, wAgent2],
    conversation_log := [], debug_history := [] }

/-- The sealed record of the first turn of the two-autonomous simulation. -/
def duoRecord : TurnRecord :=
  match step (fun _ => rawB) jpTalk simDuo with
  | Except.ok (StepOutcome.sealed r, _) => r
  | _ => { turn := 0, snapshot := fallbackSim.snapshot, turnMessages := [], debug := [] }

/-- The state after that sealed turn. -/
def duoAfter : Simulation :=
  match step (fun _ => rawB) jpTalk simDuo with
  | Except.ok (_, s) => s
  | _ => fallbackSim

/-- The suspended agent name returned by the player-enabled first step. -/
def pendOutName : String :=
  match step (fun _ => rawB) jpTalk simReset with
  | Except.ok (StepOutcome.pending a _, _) => a
  | _ => ""

/-- The frozen legal actions returned by the player-enabled first step. -/
def pendOutLegal : List ActionDict :=
  match step (fun _ => rawB) jpTalk simReset with
  | Except.ok (StepOutcome.pending _ lg, _) => lg
  | _ => []

/-- The wait action submitted by the player in the witness. -/
def waitInput : Json := Json.obj [("action", Json.str "wait")]

/-- The record sealed by resuming the suspended turn with a wait. -/
def resumeRecord : TurnRecord :=
  match apply_player_action (fun _ => rawB) jpTalk simPending waitInput with
  | Except.ok (StepOutcome.sealed r, _) => r
  | _ => { turn := 0, snapshot := fallbackSim.snapshot, turnMessages := [], debug := [] }

/-- The state after the resumed turn sealed. -/
def resumeAfter : Simulation :=
  match apply_player_action (fun _ => rawB) jpTalk simPending waitInput with
  | Except.ok (_, s) => s
  | _ => fallbackSim

/-! ## The board invariant -/

/-- In-bounds position. -/
def posOK (g : Int) (a : AgentState) : Prop :=
  0 ≤ a.x ∧ a.x < g ∧ 0 ≤ a.y ∧ a.y < g

/-- Pairwise distinct names and pairwise distinct cells. -/
def distinctAgents (l : List AgentState) : Prop :=
  l.Pairwise (fun a b => a.name ≠ b.name ∧ (a.x, a.y) ≠ (b.x, b.y))

/-- The board invariant: every agent in bounds, no two agents sharing a
name or a cell. -/
def WF (sim : Simulation) : Prop :=
  (∀ a ∈ sim.agents, posOK sim.grid_size a) ∧ distinctAgents sim.agents

/-! ## Reachability and the C3 invariant -/

/-- States reachable through the backend entry points: a successful reset
from any shuffle of the grid cells, and any outcome — normal or a
synchronous error — of `step` and `apply_player_action` under arbitrary
oracle replies, JSON decoding and player payloads. -/
inductive Reachable : Simulation → Prop where
  | of_reset (cfg : Config) (shuffled : List (Int × Int))
      (hperm : shuffled.Perm (initial_cells cfg.grid_size)) (sim : Simulation)
      (h : reset cfg shuffled = Except.ok sim) : Reachable sim
  | of_step_ok (responses : Nat → String) (jparse : String → Option JsonObj)
      (sim : Simulation) (out : StepOutcome) (sim2 : Simulation)
      (hr : Reachable sim)
      (h : step responses jparse sim = Except.ok (out, sim2)) : Reachable sim2
  | of_step_err (responses : Nat → String) (jparse : String → Option JsonObj)
      (sim : Simulation) (e : String) (sim2 : Simulation)
      (hr : Reachable sim)
      (h : step responses jparse sim = Except.error (e, sim2)) : Reachable sim2
  | of_player_ok (responses : Nat → String) (jparse : String → Option JsonObj)
      (sim : Simulation) (action : Json) (out : StepOutcome) (sim2 : Simulation)
      (hr : Reachable sim)
      (h : apply_player_action responses jparse sim action =
        Except.ok (out, sim2)) : Reachable sim2
  | of_player_err (responses : Nat → String) (jparse : String → Option JsonObj)
      (sim : Simulation) (action : Json) (e : String) (sim2 : Simulation)
      (hr : Reachable sim)
      (h : apply_player_action responses jparse sim action =
        Except.error (e, sim2)) : Reachable sim2

/-- Five agents on a 2×2 grid: one more agent than cells. -/
def cfgBig : Config := { num_agents := 5, grid_size := 2, player_agent := false }

/-! ## Theorems -/

/-! ## Helper lemmas -/

theorem foldl_if_append {α β : Type} (p : α → Prop) [DecidablePred p] (f : α → β) :
    ∀ (l : List α) (base : List β),
      (l.foldl (fun acc x => if p x then acc ++ [f x] else acc) base)
        = base ++ (l.filter (fun x => decide (p x))).map f := by
  intro l
  induction l with
  | nil => intro base; simp
  | cons x xs ih =>
    intro base
    by_cases h : p x
    · simp [List.foldl, h, ih, List.filter_cons]
    · simp [List.foldl, h, ih, List.filter_cons]

theorem isStrEq_iff (v : Option Json) (s : String) :
    isStrEq v s = true ↔ v = some (Json.str s) := by
  constructor
  · intro h
    cases v with
    | none => simp [isStrEq] at h
    | some j =>
      cases j with
      | str t => simp [isStrEq] at h; subst h; rfl
      | null => simp [isStrEq] at h
      | bool b => simp [isStrEq] at h
      | num n => simp [isStrEq] at h
      | arr xs => simp [isStrEq] at h
      | obj kvs => simp [isStrEq] at h
  · intro h; subst h; simp [isStrEq]

theorem isStr_iff (v : Option Json) : isStr v = true ↔ ∃ t, v = some (Json.str t) := by
  cases v with
  | none => simp [isStr]
  | some j =>
    cases j with
    | str t => simp [isStr]
    | null => simp [isStr]
    | bool b => simp [isStr]
    | num n => simp [isStr]
    | arr xs => simp [isStr]
    | obj kvs => simp [isStr]

/-- Claim C4: for every agent, the legal action set is the ordered list
beginning with Wait, followed by one Move entry per orthogonal direction
whose destination cell is within bounds and not occupied by another agent
(in the order up, down, left, right), followed by one Talk entry per other
agent at Manhattan distance exactly 1; in particular its head is Wait, so
it always contains Wait. -/
theorem claim_C4_legal_action_set (agent : AgentState) (agents : List AgentState) (grid_size : Int) :
    legal_actions agent agents grid_size =
      waitA ::
      ((directionOrder.filter (fun d =>
          let dd := move_delta d
          decide (0 ≤ agent.x + dd.1) && decide (agent.x + dd.1 < grid_size) &&
          decide (0 ≤ agent.y + dd.2) && decide (agent.y + dd.2 < grid_size) &&
          ! occupied_by_other agents agent.name (agent.x + dd.1) (agent.y + dd.2))).map moveA
        ++ (agents.filter (fun o => decide (o.name ≠ agent.name) &&
              decide ((agent.x - o.x).natAbs + (agent.y - o.y).natAbs = 1))).map
            (fun o => talkLegal o.name)) := by
  unfold legal_actions
  rw [foldl_if_append (fun d => move_open agent agents grid_size d = true) moveA,
      foldl_if_append (fun o => o.name ≠ agent.name ∧ is_adjacent agent o = true)
        (fun o => talkLegal o.name)]
  have h1 : (fun x => decide (move_open agent agents grid_size x = true)) =
      (fun d =>
          let dd := move_delta d
          decide (0 ≤ agent.x + dd.1) && decide (agent.x + dd.1 < grid_size) &&
          decide (0 ≤ agent.y + dd.2) && decide (agent.y + dd.2 < grid_size) &&
          ! occupied_by_other agents agent.name (agent.x + dd.1) (agent.y + dd.2)) := by
    funext d
    simp [move_open]
  have h2 : (fun x => decide (x.name ≠ agent.name ∧ is_adjacent agent x = true)) =
      (fun o => decide (o.name ≠ agent.name) &&
          decide ((agent.x - o.x).natAbs + (agent.y - o.y).natAbs = 1)) := by
    funext o
    by_cases hn : o.name = agent.name <;>
      by_cases ha : (agent.x - o.x).natAbs + (agent.y - o.y).natAbs = 1 <;>
        simp [is_adjacent, hn, ha]
  rw [h1, h2]
  simp

theorem parse_action_no_block (raw : String) (jparse : String → Option JsonObj)
    (h : extract_json_block raw = none) :
    parse_action raw jparse = { action := "wait" } := by
  simp only [parse_action, h]

theorem parse_action_bad_json (raw : String) (jparse : String → Option JsonObj)
    (block : String) (hb : extract_json_block raw = some block)
    (hj : jparse block = none) :
    parse_action raw jparse = { action := "wait" } := by
  simp only [parse_action, hb, hj]

theorem parse_action_parsed (raw : String) (jparse : String → Option JsonObj)
    (block : String) (data : JsonObj) (hb : extract_json_block raw = some block)
    (hj : jparse block = some data) :
    parse_action raw jparse =
      (let action := pyGet data "action"
       if ¬ (isStrEq action "move" ∨ isStrEq action "talk" ∨ isStrEq action "wait") then
        { action := "wait" }
       else if isStrEq action "move" then
        let direction := pyGet data "direction"
        if ¬ (isStrEq direction "up" ∨ isStrEq direction "down" ∨
              isStrEq direction "left" ∨ isStrEq direction "right") then
          { action := "wait" }
        else
          { action := "move", direction := asStr direction }
       else if isStrEq action "talk" then
        let target := pyGet data "target"
        let message := pyGet data "message"
        if ¬ (isStr target ∧ isStr message) then
          { action := "wait" }
        else
          { action := "talk", target := asStr target, message := asStr message }
       else
        { action := "wait" }) := by
  simp only [parse_action, hb, hj]

theorem parse_action_wellFormed (raw : String) (jparse : String → Option JsonObj) :
    wellFormedAction (parse_action raw jparse) := by
  cases hb : extract_json_block raw with
  | none => exact Or.inl (parse_action_no_block raw jparse hb)
  | some block =>
    cases hj : jparse block with
    | none => exact Or.inl (parse_action_bad_json raw jparse block hb hj)
    | some data =>
      rw [parse_action_parsed raw jparse block data hb hj]
      simp only
      split_ifs with h1 h2 h3 h4 h5
      · rcases h3 with h | h | h | h <;>
          (rw [isStrEq_iff] at h; rw [h]; refine Or.inr (Or.inl ?_)) <;> first
            | exact ⟨"up", by simp [directionOrder], rfl⟩
            | exact ⟨"down", by simp [directionOrder], rfl⟩
            | exact ⟨"left", by simp [directionOrder], rfl⟩
            | exact ⟨"right", by simp [directionOrder], rfl⟩
      · exact Or.inl rfl
      · rcases h5 with ⟨ht, hm⟩
        rcases (isStr_iff _).mp ht with ⟨t, ht2⟩
        rcases (isStr_iff _).mp hm with ⟨m, hm2⟩
        rw [ht2, hm2]
        exact Or.inr (Or.inr ⟨t, m, rfl⟩)
      · exact Or.inl rfl
      · exact Or.inl rfl
      · exact Or.inl rfl

/-- Claim C8: the free-text decoder always returns one of the three
well-formed action shapes, and it returns exactly Wait when no JSON object
is extractable, when JSON parsing fails, when the declared action is not
one of move/talk/wait, when a move lacks a direction in the direction
enum, or when a talk lacks a string-typed target or message. -/
theorem claim_C8_decoder_degrades (raw : String) (jparse : String → Option JsonObj) :
    wellFormedAction (parse_action raw jparse) ∧
    (extract_json_block raw = none → parse_action raw jparse = { action := "wait" }) ∧
    (∀ block, extract_json_block raw = some block → jparse block = none →
      parse_action raw jparse = { action := "wait" }) ∧
    (∀ block data, extract_json_block raw = some block → jparse block = some data →
      ((∀ s ∈ (["move", "talk", "wait"] : List String),
          pyGet data "action" ≠ some (Json.str s)) →
        parse_action raw jparse = { action := "wait" }) ∧
      (pyGet data "action" = some (Json.str "move") →
        (∀ d ∈ directionOrder, pyGet data "direction" ≠ some (Json.str d)) →
        parse_action raw jparse = { action := "wait" }) ∧
      (pyGet data "action" = some (Json.str "talk") →
        ((¬ ∃ t, pyGet data "target" = some (Json.str t)) ∨
          (¬ ∃ m, pyGet data "message" = some (Json.str m))) →
        parse_action raw jparse = { action := "wait" })) := by
  refine ⟨parse_action_wellFormed raw jparse, parse_action_no_block raw jparse,
          fun block hb hj => parse_action_bad_json raw jparse block hb hj, ?_⟩
  intro block data hb hj
  rw [parse_action_parsed raw jparse block data hb hj]
  simp only
  refine ⟨?_, ?_, ?_⟩
  · intro hall
    rw [if_pos]
    rintro (h | h | h) <;>
      exact hall _ (by simp) ((isStrEq_iff _ _).mp h)
  · intro hmv hdir
    have hA : isStrEq (pyGet data "action") "move" = true := (isStrEq_iff _ _).mpr hmv
    rw [if_neg (fun h => h (Or.inl hA)), if_pos hA, if_pos]
    rintro (h | h | h | h) <;>
      exact hdir _ (by simp [directionOrder]) ((isStrEq_iff _ _).mp h)
  · intro htk hne
    have hA : isStrEq (pyGet data "action") "talk" = true := (isStrEq_iff _ _).mpr htk
    have hM : isStrEq (pyGet data "action") "move" = false := by
      rw [htk]; simp [isStrEq]
    rw [if_neg (fun h => h (Or.inr (Or.inl hA))), if_neg (by simp [hM]), if_pos hA, if_pos]
    rintro ⟨ht, hm⟩
    rcases hne with hne | hne
    · exact hne ((isStr_iff _).mp ht)
    · exact hne ((isStr_iff _).mp hm)

theorem digitVal_digitChar {d : Nat} (h : d < 10) :
    digitVal (Nat.digitChar d) = d := by
  interval_cases d <;> decide

theorem decVal_append (l : List Char) (c : Char) :
    decVal (l ++ [c]) = decVal l * 10 + digitVal c := by
  simp [decVal, List.foldl_append]

theorem toDigitsCore_append (b : Nat) :
    ∀ (fuel n : Nat) (ds : List Char),
      Nat.toDigitsCore b fuel n ds = Nat.toDigitsCore b fuel n [] ++ ds := by
  intro fuel
  induction fuel with
  | zero => intro n ds; simp [Nat.toDigitsCore]
  | succ f ih =>
    intro n ds
    simp only [Nat.toDigitsCore]
    by_cases h : n / b = 0
    · simp [h]
    · rw [if_neg h, if_neg h, ih (n / b) (Nat.digitChar (n % b) :: ds),
          ih (n / b) [Nat.digitChar (n % b)]]
      simp

theorem toDigitsCore_fuel (b : Nat) (hb : 2 ≤ b) :
    ∀ (n fuel fuel' : Nat), n < fuel → n < fuel' →
      Nat.toDigitsCore b fuel n [] = Nat.toDigitsCore b fuel' n [] := by
  intro n
  induction n using Nat.strong_induction_on with
  | _ n ih =>
    intro fuel fuel' hf hf'
    match fuel, fuel' with
    | f + 1, f' + 1 =>
      simp only [Nat.toDigitsCore]
      by_cases h : n / b = 0
      · simp [h]
      · have hnb : b ≤ n := by
          by_contra hc
          exact h (Nat.div_eq_of_lt (by omega))
        have hdiv : n / b < n := Nat.div_lt_self (by omega) (by omega)
        rw [if_neg h, if_neg h,
            toDigitsCore_append b f (n / b) [Nat.digitChar (n % b)],
            toDigitsCore_append b f' (n / b) [Nat.digitChar (n % b)],
            ih (n / b) hdiv f f' (by omega) (by omega)]

theorem decVal_toDigits (n : Nat) : decVal (Nat.toDigits 10 n) = n := by
  induction n using Nat.strong_induction_on with
  | _ n ih =>
    unfold Nat.toDigits
    simp only [Nat.toDigitsCore]
    by_cases h : n / 10 = 0
    · have hn : n < 10 := by omega
      rw [if_pos h]
      have hv : decVal [Nat.digitChar (n % 10)] = digitVal (Nat.digitChar (n % 10)) := by
        simp [decVal]
      rw [hv, digitVal_digitChar (Nat.mod_lt n (by omega))]
      omega
    · have hge : 10 ≤ n := by
        by_contra hc
        exact h (Nat.div_eq_of_lt (by omega))
      have hdiv : n / 10 < n := Nat.div_lt_self (by omega) (by omega)
      rw [if_neg h, toDigitsCore_append 10 n (n / 10) [Nat.digitChar (n % 10)],
          toDigitsCore_fuel 10 (by omega) (n / 10) n (n / 10 + 1) (by omega) (by omega)]
      have hrt : Nat.toDigitsCore 10 (n / 10 + 1) (n / 10) [] = Nat.toDigits 10 (n / 10) := rfl
      rw [hrt, decVal_append, ih (n / 10) hdiv,
          digitVal_digitChar (Nat.mod_lt n (by omega))]
      omega

theorem Nat_repr_injective : Function.Injective Nat.repr := by
  intro m n h
  have hd : Nat.toDigits 10 m = Nat.toDigits 10 n := by
    have h2 := congrArg String.data h
    simpa [Nat.repr, List.asString] using h2
  have h3 := congrArg decVal hd
  simpa [decVal_toDigits] using h3

theorem agent_name_of_injective : Function.Injective agent_name_of := by
  intro i j h
  unfold agent_name_of at h
  have hd := congrArg String.data h
  simp only [String.data_append] at hd
  have hr : (Nat.repr (i + 1)).data = (Nat.repr (j + 1)).data :=
    List.append_cancel_left hd
  have : Nat.repr (i + 1) = Nat.repr (j + 1) := by
    cases hre : Nat.repr (i + 1)
    cases hre2 : Nat.repr (j + 1)
    simp_all
  have := Nat_repr_injective this
  omega

theorem agent_names_nodup (n : Nat) : (agent_names n).Nodup :=
  (List.nodup_range n).map agent_name_of_injective

/-- Witness for C8: a concrete oracle text with no extractable JSON object
decodes to exactly Wait. -/
theorem claim_C8_witness :
    extract_json_block "no json here" = none ∧
    parse_action "no json here" (fun _ => none) = { action := "wait" } :=
  ⟨rfl, (claim_C8_decoder_degrades "no json here" (fun _ => none)).2.1 rfl⟩

/-- Claim C1 (code bug): `_enforce_legality` of
`src/backend/src/sandbox_simulation.py` does NOT return a legal action
unchanged and DOES raise.  Because the final target check is dedented out
of the talk branch, (1) a decoded Wait action — the decoder\x27s canonical
fallback, and always a member of the legal set — reaches that check with
the local `allowed` unassigned and raises `UnboundLocalError`, aborting
the turn; (2) a Move whose direction IS in the legal set falls through to
the same check and degrades to Wait with an "Illegal talk rejected" note.
The sibling copy `src/backend/src/backend/sandbox_simulation.py`
(`enforce_legality_nested`) behaves as the claim states on the same
inputs. -/
theorem claim_C1_enforce_legality_is_buggy :
    (waitA ∈ [waitA, moveA "up"] ∧
      enforce_legality waitA [waitA, moveA "up"] "agent1" =
        Except.error
          "UnboundLocalError: local variable allowed referenced before assignment") ∧
    (moveA "up" ∈ [waitA, moveA "up"] ∧
      enforce_legality (moveA "up") [waitA, moveA "up"] "agent1" =
        Except.ok { action := "wait",
                    notes := some "Illegal talk rejected for agent1" }) ∧
    enforce_legality_nested waitA [waitA, moveA "up"] "agent1" = waitA ∧
    enforce_legality_nested (moveA "up") [waitA, moveA "up"] "agent1" = moveA "up" :=
  ⟨⟨by simp, rfl⟩, ⟨by simp, rfl⟩, rfl, rfl⟩

/-- Claim C9: calling step while a player decision is outstanding errors
without starting a new turn, and calling apply_player_action with no
pending decision errors; in both cases the error carries the state
unchanged, so only the offending call is rejected. -/
theorem claim_C9_reentrancy_guards (responses : Nat → String)
    (jparse : String → Option JsonObj) (sim : Simulation) (action : Json) :
    (sim.agents ≠ [] → sim.pending_player.isSome = true →
      step responses jparse sim =
        Except.error
          ("Awaiting player action; resolve before advancing the turn.", sim)) ∧
    (sim.pending_player = none →
      apply_player_action responses jparse sim action =
        Except.error ("No player action is pending.", sim)) := by
  constructor
  · intro h1 h2
    have he : sim.agents.isEmpty = false := by
      cases hl : sim.agents with
      | nil => exact absurd hl h1
      | cons a l => rfl
    simp [step, he, h2]
  · intro h
    simp [apply_player_action, h]

/-- Witness for C9: the concrete suspended simulation rejects `step`, and
the concrete fresh simulation rejects `apply_player_action`. -/
theorem claim_C9_witness :
    (simPending.agents ≠ [] ∧ simPending.pending_player.isSome = true ∧
      step (fun _ => rawB) jpTalk simPending =
        Except.error
          ("Awaiting player action; resolve before advancing the turn.", simPending)) ∧
    (simReset.pending_player = none ∧
      apply_player_action (fun _ => rawB) jpTalk simReset (Json.str "x") =
        Except.error ("No player action is pending.", simReset)) :=
  ⟨⟨by decide, by decide,
    (claim_C9_reentrancy_guards (fun _ => rawB) jpTalk simPending (Json.str "x")).1
      (by decide) (by decide)⟩,
   ⟨by decide,
    (claim_C9_reentrancy_guards (fun _ => rawB) jpTalk simReset (Json.str "x")).2
      (by decide)⟩⟩

/-- Counterexample to claim C2: in the concrete reachable suspended state,
calling apply_player_action with a malformed (non-dict) action does raise a
synchronous error, but the state does NOT remain unchanged — the pending
player marker was cleared before validation, so the decision is no longer
pending and the same call cannot be retried. -/
theorem claim_C2_counterexample :
    simPending.pending_player.isSome = true ∧
    apply_player_action (fun _ => rawB) jpTalk simPending (Json.str "bogus") =
      Except.error ("Player action must be a JSON object.",
        { simPending with pending_player := none }) ∧
    ({ simPending with pending_player := none } : Simulation) ≠ simPending ∧
    apply_player_action (fun _ => rawB) jpTalk
        { simPending with pending_player := none } (Json.str "bogus") =
      Except.error ("No player action is pending.",
        { simPending with pending_player := none }) :=
  ⟨by decide, by rfl, by decide, by rfl⟩

/-- Claim C2 as amended: with a player decision pending, calling
apply_player_action with an action that fails validation (malformed or
outside the frozen legal set) raises a synchronous error and leaves the
agents, logs, turn counter and history unchanged — but the pending-player
marker is cleared before validation runs, so the decision is no longer
pending and an immediate retry of the same call fails with the
no-pending-decision error instead. -/
theorem claim_C2_amended (responses : Nat → String) (jparse : String → Option JsonObj)
    (sim : Simulation) (info : PendingPlayer) (agent : AgentState) (action : Json)
    (msg : String)
    (hp : sim.pending_player = some info)
    (hm : sim.active_turn_messages.isSome = true)
    (hd : sim.active_turn_debug.isSome = true)
    (ha : sim.agents[info.agent_index]? = some agent)
    (hbad : validate_player_action action info.legal_actions agent.name =
      Except.error msg) :
    apply_player_action responses jparse sim action =
      Except.error (msg, { sim with pending_player := none }) ∧
    apply_player_action responses jparse { sim with pending_player := none } action =
      Except.error ("No player action is pending.",
        { sim with pending_player := none }) := by
  obtain ⟨mv, hmv⟩ := Option.isSome_iff_exists.mp hm
  obtain ⟨dv, hdv⟩ := Option.isSome_iff_exists.mp hd
  constructor
  · simp only [apply_player_action, hp, hmv, hdv, Option.isNone_none, Option.isNone_some,
      Bool.or_self, Bool.false_or, if_false]
    simp only [ha, hbad]
    simp
  · simp [apply_player_action]

/-- Witness for the amended C2 at the concrete suspended state and a
malformed (non-dict) player action. -/
theorem claim_C2_amended_witness :
    apply_player_action (fun _ => rawB) jpTalk simPending (Json.str "bogus") =
      Except.error ("Player action must be a JSON object.",
        { simPending with pending_player := none }) ∧
    apply_player_action (fun _ => rawB) jpTalk
        { simPending with pending_player := none } (Json.str "bogus") =
      Except.error ("No player action is pending.",
        { simPending with pending_player := none }) :=
  claim_C2_amended (fun _ => rawB) jpTalk simPending pendInfo pendAgent
    (Json.str "bogus") "Player action must be a JSON object."
    (by rfl) (by decide) (by decide) (by rfl) (by rfl)

/-- Claim C5: an applied Move re-evaluates its destination against the
current board: when the destination is out of bounds or occupied by
another agent the move is a no-op whose debug note reads blocked (the
agent list is unchanged), and otherwise the agent\x27s position is updated
in place to the destination cell. -/
theorem claim_C5_move_application (sim : Simulation) (agentIdx dbgIdx : Nat)
    (agent : AgentState) (direction : String) (msgs : List ConversationEntry)
    (hm : sim.active_turn_messages = some msgs)
    (ha : sim.agents[agentIdx]? = some agent)
    (hdir : direction ∈ directionOrder) :
    (((agent.x + (move_delta direction).1 < 0 ∨
       sim.grid_size ≤ agent.x + (move_delta direction).1 ∨
       agent.y + (move_delta direction).2 < 0 ∨
       sim.grid_size ≤ agent.y + (move_delta direction).2 ∨
       occupied_by_other sim.agents agent.name
         (agent.x + (move_delta direction).1)
         (agent.y + (move_delta direction).2) = true)) →
      (apply_action sim agentIdx dbgIdx (moveA direction) =
         withNote sim dbgIdx "Move blocked; stayed in place." ∧
       (apply_action sim agentIdx dbgIdx (moveA direction)).agents = sim.agents)) ∧
    ((¬ (agent.x + (move_delta direction).1 < 0 ∨
         sim.grid_size ≤ agent.x + (move_delta direction).1 ∨
         agent.y + (move_delta direction).2 < 0 ∨
         sim.grid_size ≤ agent.y + (move_delta direction).2 ∨
         occupied_by_other sim.agents agent.name
           (agent.x + (move_delta direction).1)
           (agent.y + (move_delta direction).2) = true)) →
      apply_action sim agentIdx dbgIdx (moveA direction) =
        withNote { sim with agents := sim.agents.set agentIdx (movedAgent agent (agent.x + (move_delta direction).1) (agent.y + (move_delta direction).2)) } dbgIdx
          ("Moved to (" ++ toString (agent.x + (move_delta direction).1) ++ ", " ++
            toString (agent.y + (move_delta direction).2) ++ ").")) := by
  have hbEq : (decide (agent.x + (move_delta direction).1 < 0) ||
      decide (agent.x + (move_delta direction).1 ≥ sim.grid_size) ||
      decide (agent.y + (move_delta direction).2 < 0) ||
      decide (agent.y + (move_delta direction).2 ≥ sim.grid_size) ||
      occupied_by_other sim.agents agent.name
        (agent.x + (move_delta direction).1)
        (agent.y + (move_delta direction).2)) = true ↔
      (agent.x + (move_delta direction).1 < 0 ∨
       sim.grid_size ≤ agent.x + (move_delta direction).1 ∨
       agent.y + (move_delta direction).2 < 0 ∨
       sim.grid_size ≤ agent.y + (move_delta direction).2 ∨
       occupied_by_other sim.agents agent.name
         (agent.x + (move_delta direction).1)
         (agent.y + (move_delta direction).2) = true) := by
    simp [Bool.or_eq_true, decide_eq_true_eq, ge_iff_le, or_assoc]
  constructor
  · intro h
    have heq : apply_action sim agentIdx dbgIdx (moveA direction) =
        withNote sim dbgIdx "Move blocked; stayed in place." := by
      simp only [apply_action, hm, ha, moveA, if_true]
      rw [if_pos hdir, if_pos (hbEq.mpr h)]
    exact ⟨heq, by rw [heq]; rfl⟩
  · intro h
    simp only [apply_action, hm, ha, moveA, if_true]
    rw [if_pos hdir, if_neg (fun hc => h (hbEq.mp hc)), ← hm]
    rfl

/-- Claim C6: an applied Talk appends one ConversationEntry to the
permanent log and the turn\x27s delivered list and overwrites the target\x27s
inbox with the sender and message, if and only if the target exists and is
orthogonally adjacent at application time; otherwise it is a no-op whose
only effect is the debug-trace note. -/
theorem claim_C6_talk_delivery (sim : Simulation) (agentIdx dbgIdx : Nat)
    (agent : AgentState) (target message : String) (msgs : List ConversationEntry)
    (hm : sim.active_turn_messages = some msgs)
    (ha : sim.agents[agentIdx]? = some agent) :
    (∀ t tagent, sim.agents.findIdx? (fun a => a.name == target) = some t →
      sim.agents[t]? = some tagent →
      (is_adjacent agent tagent = true →
        apply_action sim agentIdx dbgIdx (talkA target message) =
          withNote { sim with agents := sim.agents.set t (inboxedAgent tagent agent.name message), active_turn_messages := some (msgs ++ [talkPayload agent.name target message sim.turn]), conversation_log := sim.conversation_log ++ [talkPayload agent.name target message sim.turn] } dbgIdx ("Spoke to " ++ target ++ ".")) ∧
      (is_adjacent agent tagent = false →
        apply_action sim agentIdx dbgIdx (talkA target message) =
          withNote sim dbgIdx "Talk target invalid or not adjacent.")) ∧
    (sim.agents.findIdx? (fun a => a.name == target) = none →
      apply_action sim agentIdx dbgIdx (talkA target message) =
        withNote sim dbgIdx "Talk target invalid or not adjacent.") := by
  constructor
  · intro t tagent hfind htag
    constructor
    · intro hadj
      simp only [apply_action, hm, ha, talkA, hfind, htag, hadj, reduceIte]
      rfl
    · intro hnadj
      simp only [apply_action, hm, ha, talkA, hfind, htag, hnadj, Bool.false_eq_true,
        reduceIte]
      rw [if_neg (show ¬("talk" = "move") by decide)]
  · intro hfind
    simp only [apply_action, hm, ha, talkA, hfind, reduceIte]
    rw [if_neg (show ¬("talk" = "move") by decide)]

/-- Witness for C5: in the concrete state, moving down into the occupied
cell (0,1) is blocked (note recorded, agents unchanged) and moving right
into the free cell (1,0) updates the position. -/
theorem claim_C5_witness :
    (apply_action wSimBase 0 0 (moveA "down") =
        withNote wSimBase 0 "Move blocked; stayed in place." ∧
      (apply_action wSimBase 0 0 (moveA "down")).agents = wSimBase.agents) ∧
    apply_action wSimBase 0 0 (moveA "right") =
      withNote { wSimBase with agents := wSimBase.agents.set 0 (movedAgent wAgent1 1 0) } 0 "Moved to (1, 0)." :=
  ⟨(claim_C5_move_application wSimBase 0 0 wAgent1 "down" [] rfl rfl (by decide)).1
      (by decide),
   (claim_C5_move_application wSimBase 0 0 wAgent1 "right" [] rfl rfl (by decide)).2
      (by decide)⟩

/-- Witness for C6: in the concrete state, a talk to the adjacent agent2
is delivered (log, turn list, inbox) and a talk to a nonexistent target is
a no-op with the invalid-target note. -/
theorem claim_C6_witness :
    apply_action wSimBase 0 0 (talkA "agent2" "hi") =
      withNote { wSimBase with agents := wSimBase.agents.set 1 (inboxedAgent wAgent2 "agent1" "hi"), active_turn_messages := some [talkPayload "agent1" "agent2" "hi" 1], conversation_log := [talkPayload "agent1" "agent2" "hi" 1] } 0 "Spoke to agent2." ∧
    apply_action wSimBase 0 0 (talkA "ghost" "hi") =
      withNote wSimBase 0 "Talk target invalid or not adjacent." :=
  ⟨((claim_C6_talk_delivery wSimBase 0 0 wAgent1 "agent2" "hi" [] rfl rfl).1 1 wAgent2
      rfl rfl).1 (by decide),
   (claim_C6_talk_delivery wSimBase 0 0 wAgent1 "ghost" "hi" [] rfl rfl).2 rfl⟩

/-- `_apply_action` never touches the sealed history, the pending marker,
the turn counter, the grid size, or the number of agents. -/
theorem apply_action_frame (sim : Simulation) (agentIdx dbgIdx : Nat)
    (action : ActionDict) :
    (apply_action sim agentIdx dbgIdx action).debug_history = sim.debug_history ∧
    (apply_action sim agentIdx dbgIdx action).pending_player = sim.pending_player ∧
    (apply_action sim agentIdx dbgIdx action).turn = sim.turn ∧
    (apply_action sim agentIdx dbgIdx action).grid_size = sim.grid_size ∧
    (apply_action sim agentIdx dbgIdx action).agents.length = sim.agents.length := by
  unfold apply_action withNote
  repeat' split <;> (try simp [setNotes]) <;> (try (repeat' split)) <;> simp [setNotes]

/-- One slot of the turn loop never touches the sealed history, and a
suspension always carries a pending outcome. -/
theorem process_slot_keeps_history (sim : Simulation) (responses : Nat → String)
    (jparse : String → Option JsonObj) (idx : Nat) :
    (∀ sim2, process_slot sim responses jparse idx = Except.ok (SlotResult.cont sim2) →
      sim2.debug_history = sim.debug_history) ∧
    (∀ o sim2, process_slot sim responses jparse idx =
        Except.ok (SlotResult.suspend o sim2) →
      (∃ a lg, o = StepOutcome.pending a lg) ∧
        sim2.debug_history = sim.debug_history) ∧
    (∀ e sim2, process_slot sim responses jparse idx = Except.error (e, sim2) →
      sim2.debug_history = sim.debug_history) := by
  cases hA : sim.agents[idx]? with
  | none =>
    refine ⟨fun sim2 h => ?_, fun o sim2 h => ?_, fun e sim2 h => ?_⟩ <;>
      simp only [process_slot, hA, Except.ok.injEq, Except.error.injEq,
        Prod.mk.injEq, reduceCtorEq] at h
    obtain ⟨h1, h2⟩ := h
    subst h2
    rfl
  | some agent =>
    cases hp : agent.isPlayer with
    | true =>
      refine ⟨fun sim2 h => ?_, fun o sim2 h => ?_, fun e sim2 h => ?_⟩ <;>
        simp only [process_slot, hA, hp, if_true, Except.ok.injEq, Except.error.injEq,
          Prod.mk.injEq, reduceCtorEq, SlotResult.suspend.injEq] at h
      obtain ⟨h1, h2⟩ := h
      subst h2
      exact ⟨⟨agent.name, _, h1.symm⟩, rfl⟩
    | false =>
      cases hE : enforce_legality (parse_action (responses idx) jparse)
          (decorate sim.agent_profiles
            (legal_actions agent sim.agents sim.grid_size)) agent.name with
      | error e0 =>
        refine ⟨fun sim2 h => ?_, fun o sim2 h => ?_, fun e sim2 h => ?_⟩ <;>
          simp only [process_slot, hA, hp, Bool.false_eq_true, if_false, hE,
            Except.ok.injEq, Except.error.injEq, Prod.mk.injEq, reduceCtorEq] at h
        obtain ⟨h1, h2⟩ := h
        subst h2
        rfl
      | ok act =>
        refine ⟨fun sim2 h => ?_, fun o sim2 h => ?_, fun e sim2 h => ?_⟩ <;>
          simp only [process_slot, hA, hp, Bool.false_eq_true, if_false, hE,
            Except.ok.injEq, Except.error.injEq, Prod.mk.injEq, reduceCtorEq,
            SlotResult.cont.injEq] at h
        subst h
        exact (apply_action_frame _ _ _ _).1

/-- The slot loop appends exactly the sealed record to history when it
completes, and nothing otherwise. -/
theorem run_slots_history (responses : Nat → String) (jparse : String → Option JsonObj) :
    ∀ (l : List Nat) (sim : Simulation),
      (∀ r sim2, run_slots responses jparse l sim =
          Except.ok (StepOutcome.sealed r, sim2) →
        sim2.debug_history = sim.debug_history ++ [r]) ∧
      (∀ a lg sim2, run_slots responses jparse l sim =
          Except.ok (StepOutcome.pending a lg, sim2) →
        sim2.debug_history = sim.debug_history) ∧
      (∀ e sim2, run_slots responses jparse l sim = Except.error (e, sim2) →
        sim2.debug_history = sim.debug_history) := by
  intro l
  induction l with
  | nil =>
    intro sim
    refine ⟨fun r sim2 h => ?_, fun a lg sim2 h => ?_, fun e sim2 h => ?_⟩ <;>
      simp only [run_slots, finalise_turn, Except.ok.injEq, Except.error.injEq,
        Prod.mk.injEq, reduceCtorEq, StepOutcome.sealed.injEq, false_and] at h
    obtain ⟨h1, h2⟩ := h
    subst h1
    subst h2
    rfl
  | cons idx rest ih =>
    intro sim
    have hps := process_slot_keeps_history sim responses jparse idx
    refine ⟨fun r sim2 h => ?_, fun a lg sim2 h => ?_, fun e sim2 h => ?_⟩
    · simp only [run_slots] at h
      cases hP : process_slot sim responses jparse idx with
      | error ep =>
        rw [hP] at h
        cases h
      | ok sr =>
        rw [hP] at h
        cases sr with
        | suspend o s1 =>
          simp only [Except.ok.injEq, Prod.mk.injEq] at h
          obtain ⟨⟨a0, lg0, ho⟩, _⟩ := hps.2.1 o s1 hP
          rw [ho] at h
          simp at h
        | cont s1 =>
          rw [(ih s1).1 r sim2 h, hps.1 s1 hP]
    · simp only [run_slots] at h
      cases hP : process_slot sim responses jparse idx with
      | error ep =>
        rw [hP] at h
        cases h
      | ok sr =>
        rw [hP] at h
        cases sr with
        | suspend o s1 =>
          simp only [Except.ok.injEq, Prod.mk.injEq] at h
          obtain ⟨h1, h2⟩ := h
          subst h2
          exact (hps.2.1 o _ hP).2
        | cont s1 =>
          rw [(ih s1).2.1 a lg sim2 h, hps.1 s1 hP]
    · simp only [run_slots] at h
      cases hP : process_slot sim responses jparse idx with
      | error ep =>
        rw [hP] at h
        cases ep with
        | mk e1 s1 =>
          simp only [Except.error.injEq, Prod.mk.injEq] at h
          obtain ⟨h1, h2⟩ := h
          subst h1
          subst h2
          exact hps.2.2 _ _ hP
      | ok sr =>
        rw [hP] at h
        cases sr with
        | suspend o s1 =>
          cases h
        | cont s1 =>
          rw [(ih s1).2.2 e sim2 h, hps.1 s1 hP]

/-- `_continue_turn_from` appends exactly the sealed record to history
when the turn completes, and nothing when it suspends or raises. -/
theorem continue_turn_from_history (responses : Nat → String)
    (jparse : String → Option JsonObj) (sim : Simulation) (start : Nat) :
    (∀ r sim2, continue_turn_from responses jparse sim start =
        Except.ok (StepOutcome.sealed r, sim2) →
      sim2.debug_history = sim.debug_history ++ [r]) ∧
    (∀ a lg sim2, continue_turn_from responses jparse sim start =
        Except.ok (StepOutcome.pending a lg, sim2) →
      sim2.debug_history = sim.debug_history) ∧
    (∀ e sim2, continue_turn_from responses jparse sim start =
        Except.error (e, sim2) →
      sim2.debug_history = sim.debug_history) := by
  unfold continue_turn_from
  by_cases hc : (sim.active_turn_messages.isNone || sim.active_turn_debug.isNone) = true
  · rw [if_pos hc]
    refine ⟨fun r sim2 h => ?_, fun a lg sim2 h => ?_, fun e sim2 h => ?_⟩ <;>
      simp only [Except.ok.injEq, Except.error.injEq, Prod.mk.injEq, reduceCtorEq] at h
    obtain ⟨h1, h2⟩ := h
    subst h2
    rfl
  · rw [if_neg hc]
    exact run_slots_history responses jparse _ sim

/-- Claim C7: history grows only by sealed turns — a step (or resume)
that completes the turn appends exactly the returned record to history, a
step that suspends for the player appends nothing, and a call that raises
appends nothing; so len(history) always equals the number of fully sealed
turns and no partial turn ever appears. -/
theorem claim_C7_history (responses : Nat → String)
    (jparse : String → Option JsonObj) (sim : Simulation) (action : Json) :
    (∀ r sim2, step responses jparse sim = Except.ok (StepOutcome.sealed r, sim2) →
      sim2.debug_history = sim.debug_history ++ [r]) ∧
    (∀ a lg sim2, step responses jparse sim =
        Except.ok (StepOutcome.pending a lg, sim2) →
      sim2.debug_history = sim.debug_history) ∧
    (∀ e sim2, step responses jparse sim = Except.error (e, sim2) →
      sim2.debug_history = sim.debug_history) ∧
    (∀ r sim2, apply_player_action responses jparse sim action =
        Except.ok (StepOutcome.sealed r, sim2) →
      sim2.debug_history = sim.debug_history ++ [r]) ∧
    (∀ a lg sim2, apply_player_action responses jparse sim action =
        Except.ok (StepOutcome.pending a lg, sim2) →
      sim2.debug_history = sim.debug_history) ∧
    (∀ e sim2, apply_player_action responses jparse sim action =
        Except.error (e, sim2) →
      sim2.debug_history = sim.debug_history) := by
  have hstep :
      (∀ r sim2, step responses jparse sim = Except.ok (StepOutcome.sealed r, sim2) →
        sim2.debug_history = sim.debug_history ++ [r]) ∧
      (∀ a lg sim2, step responses jparse sim =
          Except.ok (StepOutcome.pending a lg, sim2) →
        sim2.debug_history = sim.debug_history) ∧
      (∀ e sim2, step responses jparse sim = Except.error (e, sim2) →
        sim2.debug_history = sim.debug_history) := by
    unfold step
    by_cases he : sim.agents.isEmpty = true
    · rw [if_pos he]
      refine ⟨?_, ?_, ?_⟩
      · intro r sim2 h
        cases h
      · intro a lg sim2 h
        cases h
      · intro e sim2 h
        simp only [Except.error.injEq, Prod.mk.injEq] at h
        rw [← h.2]
    · rw [if_neg he]
      by_cases hp : sim.pending_player.isSome = true
      · rw [if_pos hp]
        refine ⟨?_, ?_, ?_⟩
        · intro r sim2 h
          cases h
        · intro a lg sim2 h
          cases h
        · intro e sim2 h
          simp only [Except.error.injEq, Prod.mk.injEq] at h
          rw [← h.2]
      · rw [if_neg hp]
        exact continue_turn_from_history responses jparse _ 0
  refine ⟨hstep.1, hstep.2.1, hstep.2.2, ?_⟩
  unfold apply_player_action
  cases hpp : sim.pending_player with
  | none =>
    dsimp only
    refine ⟨?_, ?_, ?_⟩
    · intro r sim2 h
      cases h
    · intro a lg sim2 h
      cases h
    · intro e sim2 h
      simp only [Except.error.injEq, Prod.mk.injEq] at h
      rw [← h.2]
  | some info =>
    dsimp only
    by_cases hc : (sim.active_turn_messages.isNone || sim.active_turn_debug.isNone) = true
    · rw [if_pos hc]
      refine ⟨?_, ?_, ?_⟩
      · intro r sim2 h
        cases h
      · intro a lg sim2 h
        cases h
      · intro e sim2 h
        simp only [Except.error.injEq, Prod.mk.injEq] at h
        rw [← h.2]
    · rw [if_neg hc]
      cases hag : ({ sim with pending_player := none } : Simulation).agents[info.agent_index]? with
      | none =>
        refine ⟨?_, ?_, ?_⟩
        · intro r sim2 h
          cases h
        · intro a lg sim2 h
          cases h
        · intro e sim2 h
          simp only [Except.error.injEq, Prod.mk.injEq] at h
          rw [← h.2]
      | some agent =>
        cases hv : validate_player_action action info.legal_actions agent.name with
        | error msg =>
          refine ⟨?_, ?_, ?_⟩
          · intro r sim2 h
            simp only [hv, reduceCtorEq] at h
          · intro a lg sim2 h
            simp only [hv, reduceCtorEq] at h
          · intro e sim2 h
            simp only [hag, hv, Except.error.injEq, Prod.mk.injEq] at h
            rw [← h.2]
        | ok validated =>
          dsimp only
          cases hdg : (sim.active_turn_debug.getD [])[info.agent_index]? with
          | none =>
            refine ⟨?_, ?_, ?_⟩
            · intro r sim2 h
              simp only [hv, hdg, reduceCtorEq] at h
            · intro a lg sim2 h
              simp only [hv, hdg, reduceCtorEq] at h
            · intro e sim2 h
              simp only [hv, hdg, Except.error.injEq, Prod.mk.injEq] at h
              rw [← h.2]
          | some entry =>
            refine ⟨?_, ?_, ?_⟩
            · intro r sim2 h
              simp only [hv, hdg] at h
              rw [(continue_turn_from_history responses jparse _ _).1 r sim2 h]
              rw [(apply_action_frame _ _ _ _).1]
            · intro a lg sim2 h
              simp only [hv, hdg] at h
              rw [(continue_turn_from_history responses jparse _ _).2.1 a lg sim2 h]
              rw [(apply_action_frame _ _ _ _).1]
            · intro e sim2 h
              simp only [hv, hdg] at h
              rw [(continue_turn_from_history responses jparse _ _).2.2 e sim2 h]
              rw [(apply_action_frame _ _ _ _).1]

/-- Witness for C7: the concrete sealed step appends exactly one record, the
concrete suspending step appends nothing, and resuming with a wait seals
the turn and appends exactly one record. -/
theorem claim_C7_witness :
    duoAfter.debug_history = simDuo.debug_history ++ [duoRecord] ∧
    simPending.debug_history = simReset.debug_history ∧
    resumeAfter.debug_history = simPending.debug_history ++ [resumeRecord] :=
  ⟨(claim_C7_history (fun _ => rawB) jpTalk simDuo waitInput).1
      duoRecord duoAfter (by rfl),
   (claim_C7_history (fun _ => rawB) jpTalk simReset waitInput).2.1
      pendOutName pendOutLegal simPending (by rfl),
   (claim_C7_history (fun _ => rawB) jpTalk simPending waitInput).2.2.2.1
      resumeRecord resumeAfter (by rfl)⟩

theorem distinct_symm {a b : AgentState}
    (h : a.name ≠ b.name ∧ (a.x, a.y) ≠ (b.x, b.y)) :
    b.name ≠ a.name ∧ (b.x, b.y) ≠ (a.x, a.y) :=
  ⟨h.1.symm, h.2.symm⟩

theorem agentsOK_set_same (g : Int) (l : List AgentState) (k : Nat)
    (a v : AgentState) (ha : l[k]? = some a) (hn : v.name = a.name)
    (hx : v.x = a.x) (hy : v.y = a.y)
    (hp : ∀ b ∈ l, posOK g b) (hd : distinctAgents l) :
    (∀ b ∈ l.set k v, posOK g b) ∧ distinctAgents (l.set k v) := by
  obtain ⟨hk, hget⟩ := List.getElem?_eq_some.mp ha
  constructor
  · intro b hb
    rcases List.mem_or_eq_of_mem_set hb with hbl | rfl
    · exact hp b hbl
    · have := hp a (hget ▸ List.getElem_mem hk)
      exact ⟨hx ▸ this.1, hx ▸ this.2.1, hy ▸ this.2.2.1, hy ▸ this.2.2.2⟩
  · rw [distinctAgents, List.pairwise_iff_getElem] at hd ⊢
    intro i j hi hj hij
    rw [List.length_set] at hi hj
    have hgi := List.getElem_set (l := l) (m := k) (n := i) (a := v)
      (by rw [List.length_set]; exact hi)
    have hgj := List.getElem_set (l := l) (m := k) (n := j) (a := v)
      (by rw [List.length_set]; exact hj)
    rw [hgi, hgj]
    by_cases hki : k = i
    · rw [if_pos hki]
      rw [if_neg (by omega)]
      have := hd k j (by omega) hj (by omega)
      rw [hget] at this
      refine ⟨?_, ?_⟩
      · show v.name ≠ _
        rw [hn]
        exact this.1
      · show (v.x, v.y) ≠ _
        rw [hx, hy]
        exact this.2
    · rw [if_neg hki]
      by_cases hkj : k = j
      · rw [if_pos hkj]
        have := hd i k hi (by omega) (by omega)
        rw [hget] at this
        refine ⟨fun hc => this.1 ?_, fun hc => this.2 ?_⟩
        · rw [hc, hn]
        · rw [hc, hx, hy]
      · rw [if_neg hkj]
        exact hd i j hi hj hij

theorem occupied_false_iff (l : List AgentState) (name : String) (x y : Int) :
    occupied_by_other l name x y = false ↔
      ∀ o ∈ l, o.name ≠ name → ¬(o.x = x ∧ o.y = y) := by
  rw [occupied_by_other, List.any_eq_false]
  constructor
  · intro h o ho hn hxy
    exact h o ho (by simp [hn, hxy.1, hxy.2])
  · intro h o ho hc
    simp only [decide_eq_true_eq] at hc
    exact h o ho hc.1 ⟨hc.2.1, hc.2.2⟩

theorem agentsOK_set_move (g : Int) (l : List AgentState) (k : Nat)
    (a : AgentState) (nx ny : Int) (ha : l[k]? = some a)
    (hb : 0 ≤ nx ∧ nx < g ∧ 0 ≤ ny ∧ ny < g)
    (hocc : occupied_by_other l a.name nx ny = false)
    (hp : ∀ b ∈ l, posOK g b) (hd : distinctAgents l) :
    (∀ b ∈ l.set k (movedAgent a nx ny), posOK g b) ∧
    distinctAgents (l.set k (movedAgent a nx ny)) := by
  obtain ⟨hk, hget⟩ := List.getElem?_eq_some.mp ha
  have hfree := (occupied_false_iff l a.name nx ny).mp hocc
  constructor
  · intro b hb2
    rcases List.mem_or_eq_of_mem_set hb2 with hbl | rfl
    · exact hp b hbl
    · exact ⟨hb.1, hb.2.1, hb.2.2.1, hb.2.2.2⟩
  · rw [distinctAgents, List.pairwise_iff_getElem] at hd ⊢
    intro i j hi hj hij
    rw [List.length_set] at hi hj
    have hgi := List.getElem_set (l := l) (m := k) (n := i) (a := movedAgent a nx ny)
      (by rw [List.length_set]; exact hi)
    have hgj := List.getElem_set (l := l) (m := k) (n := j) (a := movedAgent a nx ny)
      (by rw [List.length_set]; exact hj)
    rw [hgi, hgj]
    by_cases hki : k = i
    · rw [if_pos hki, if_neg (by omega)]
      have hdn := hd k j (by omega) hj (by omega)
      rw [hget] at hdn
      refine ⟨?_, ?_⟩
      · show a.name ≠ _
        exact hdn.1
      · show (nx, ny) ≠ _
        intro hc
        have hj_mem : l[j] ∈ l := List.getElem_mem hj
        have := hfree l[j] hj_mem (fun hc2 => hdn.1 hc2.symm)
        exact this ⟨congrArg Prod.fst hc.symm, congrArg Prod.snd hc.symm⟩
    · rw [if_neg hki]
      by_cases hkj : k = j
      · rw [if_pos hkj]
        have hdn := hd i k hi (by omega) (by omega)
        rw [hget] at hdn
        refine ⟨?_, ?_⟩
        · show _ ≠ a.name
          exact hdn.1
        · show _ ≠ (nx, ny)
          intro hc
          have hi_mem : l[i] ∈ l := List.getElem_mem hi
          have := hfree l[i] hi_mem hdn.1
          exact this ⟨congrArg Prod.fst hc, congrArg Prod.snd hc⟩
      · rw [if_neg hkj]
        exact hd i j hi hj hij

theorem WF_withNote (sim : Simulation) (i : Nat) (s : String) (h : WF sim) :
    WF (withNote sim i s) := h

theorem apply_action_WF (sim : Simulation) (agentIdx dbgIdx : Nat)
    (action : ActionDict) (h : WF sim) :
    WF (apply_action sim agentIdx dbgIdx action) := by
  unfold apply_action
  cases hm : sim.active_turn_messages with
  | none => exact h
  | some msgs =>
    cases ha : sim.agents[agentIdx]? with
    | none => exact h
    | some agent =>
      dsimp only
      by_cases hmv : action.action = "move"
      · rw [if_pos hmv]
        cases hdo : action.direction with
        | none => exact h
        | some direction =>
          dsimp only
          by_cases hde : direction ∈ directionOrder
          · rw [if_pos hde]
            by_cases hbl : (decide (agent.x + (move_delta direction).1 < 0) ||
                decide (agent.x + (move_delta direction).1 ≥ sim.grid_size) ||
                decide (agent.y + (move_delta direction).2 < 0) ||
                decide (agent.y + (move_delta direction).2 ≥ sim.grid_size) ||
                occupied_by_other sim.agents agent.name
                  (agent.x + (move_delta direction).1)
                  (agent.y + (move_delta direction).2)) = true
            · rw [if_pos hbl]
              exact h
            · rw [if_neg hbl]
              simp only [Bool.or_eq_true, decide_eq_true_eq, not_or] at hbl
              obtain ⟨⟨⟨⟨h1, h2⟩, h3⟩, h4⟩, h5⟩ := hbl
              exact agentsOK_set_move sim.grid_size sim.agents agentIdx agent
                (agent.x + (move_delta direction).1)
                (agent.y + (move_delta direction).2) ha
                ⟨by omega, by omega, by omega, by omega⟩
                (Bool.eq_false_iff.mpr h5) h.1 h.2
          · rw [if_neg hde]
            exact h
      · rw [if_neg hmv]
        by_cases htk : action.action = "talk"
        · rw [if_pos htk]
          cases ht : action.target with
          | none => exact h
          | some target_name =>
            cases hms : action.message with
            | none => exact h
            | some message =>
              dsimp only
              cases hf : sim.agents.findIdx? (fun a => a.name == target_name) with
              | none => exact h
              | some t =>
                dsimp only
                cases htg : sim.agents[t]? with
                | none => exact h
                | some target_agent =>
                  dsimp only
                  by_cases hadj : is_adjacent agent target_agent = true
                  · rw [if_pos hadj]
                    exact agentsOK_set_same sim.grid_size sim.agents t
                      target_agent (inboxedAgent target_agent agent.name message)
                      htg rfl rfl rfl h.1 h.2
                  · rw [if_neg hadj]
                    exact h
        · rw [if_neg htk]
          exact h

theorem WF_of_fields {s t : Simulation} (h : WF s) (ha : t.agents = s.agents)
    (hg : t.grid_size = s.grid_size) : WF t := by
  rw [WF, ha, hg]
  exact h

theorem process_slot_WF (sim : Simulation) (responses : Nat → String)
    (jparse : String → Option JsonObj) (idx : Nat) (h : WF sim) :
    (∀ sim2, process_slot sim responses jparse idx = Except.ok (SlotResult.cont sim2) →
      WF sim2) ∧
    (∀ o sim2, process_slot sim responses jparse idx =
      Except.ok (SlotResult.suspend o sim2) → WF sim2) ∧
    (∀ e sim2, process_slot sim responses jparse idx = Except.error (e, sim2) →
      WF sim2) := by
  cases hA : sim.agents[idx]? with
  | none =>
    refine ⟨fun sim2 h2 => ?_, fun o sim2 h2 => ?_, fun e sim2 h2 => ?_⟩ <;>
      simp only [process_slot, hA, Except.ok.injEq, Except.error.injEq,
        Prod.mk.injEq, reduceCtorEq] at h2
    obtain ⟨h1, h2⟩ := h2
    subst h2
    exact h
  | some agent =>
    have hk := List.getElem?_eq_some.mp hA
    have hWF1 : WF { sim with agents := sim.agents.set idx { agent with inbox := none } } :=
      agentsOK_set_same sim.grid_size sim.agents idx agent
        { agent with inbox := none } hA rfl rfl rfl h.1 h.2
    have hA1 : (sim.agents.set idx { agent with inbox := none })[idx]? =
        some { agent with inbox := none } := by
      rw [List.getElem?_set]
      rw [if_pos rfl, if_pos hk.1]
    cases hp : agent.isPlayer with
    | true =>
      refine ⟨fun sim2 h2 => ?_, fun o sim2 h2 => ?_, fun e sim2 h2 => ?_⟩ <;>
        simp only [process_slot, hA, hp, if_true, Except.ok.injEq, Except.error.injEq,
          Prod.mk.injEq, reduceCtorEq, SlotResult.suspend.injEq] at h2
      obtain ⟨h1, h2⟩ := h2
      subst h2
      exact WF_of_fields hWF1 (by rw [hp]) rfl
    | false =>
      cases hE : enforce_legality (parse_action (responses idx) jparse)
          (decorate sim.agent_profiles
            (legal_actions agent sim.agents sim.grid_size)) agent.name with
      | error e0 =>
        refine ⟨fun sim2 h2 => ?_, fun o sim2 h2 => ?_, fun e sim2 h2 => ?_⟩ <;>
          simp only [process_slot, hA, hp, Bool.false_eq_true, if_false, hE,
            Except.ok.injEq, Except.error.injEq, Prod.mk.injEq, reduceCtorEq] at h2
        obtain ⟨h1, h2⟩ := h2
        subst h2
        exact WF_of_fields hWF1 (by rw [hp]) rfl
      | ok act =>
        refine ⟨fun sim2 h2 => ?_, fun o sim2 h2 => ?_, fun e sim2 h2 => ?_⟩ <;>
          simp only [process_slot, hA, hp, Bool.false_eq_true, if_false, hE,
            Except.ok.injEq, Except.error.injEq, Prod.mk.injEq, reduceCtorEq,
            SlotResult.cont.injEq] at h2
        subst h2
        apply apply_action_WF
        have hWF2 := agentsOK_set_same sim.grid_size
          (sim.agents.set idx { agent with inbox := none }) idx
          { agent with inbox := none }
          { (sim.agents.set idx { agent with inbox := none })[idx]?.getD agent with last_action := some act }
          hA1 (by rw [hA1]; rfl) (by rw [hA1]; rfl) (by rw [hA1]; rfl) hWF1.1 hWF1.2
        have hWF3 : WF { sim with agents := (sim.agents.set idx { agent with inbox := none }).set idx { (sim.agents.set idx { agent with inbox := none })[idx]?.getD agent with last_action := some act } } :=
          ⟨hWF2.1, hWF2.2⟩
        exact WF_of_fields hWF3 (by dsimp only; rw [hp]) rfl

theorem run_slots_WF (responses : Nat → String) (jparse : String → Option JsonObj) :
    ∀ (l : List Nat) (sim : Simulation), WF sim →
      (∀ out sim2, run_slots responses jparse l sim = Except.ok (out, sim2) →
        WF sim2) ∧
      (∀ e sim2, run_slots responses jparse l sim = Except.error (e, sim2) →
        WF sim2) := by
  intro l
  induction l with
  | nil =>
    intro sim hWF
    refine ⟨fun out sim2 h2 => ?_, fun e sim2 h2 => ?_⟩ <;>
      simp only [run_slots, finalise_turn, Except.ok.injEq, Except.error.injEq,
        Prod.mk.injEq, reduceCtorEq] at h2
    obtain ⟨h1, h2⟩ := h2
    subst h2
    exact WF_of_fields hWF rfl rfl
  | cons idx rest ih =>
    intro sim hWF
    have hps := process_slot_WF sim responses jparse idx hWF
    refine ⟨fun out sim2 h2 => ?_, fun e sim2 h2 => ?_⟩ <;>
      simp only [run_slots] at h2
    · cases hP : process_slot sim responses jparse idx with
      | error ep =>
        rw [hP] at h2
        cases h2
      | ok sr =>
        rw [hP] at h2
        cases sr with
        | suspend o s1 =>
          simp only [Except.ok.injEq, Prod.mk.injEq] at h2
          obtain ⟨h1, h3⟩ := h2
          subst h3
          exact hps.2.1 o _ hP
        | cont s1 =>
          exact (ih s1 (hps.1 s1 hP)).1 out sim2 h2
    · cases hP : process_slot sim responses jparse idx with
      | error ep =>
        rw [hP] at h2
        cases ep with
        | mk e1 s1 =>
          simp only [Except.error.injEq, Prod.mk.injEq] at h2
          obtain ⟨h1, h3⟩ := h2
          subst h3
          exact hps.2.2 _ _ hP
      | ok sr =>
        rw [hP] at h2
        cases sr with
        | suspend o s1 => cases h2
        | cont s1 =>
          exact (ih s1 (hps.1 s1 hP)).2 e sim2 h2

theorem continue_turn_from_WF (responses : Nat → String)
    (jparse : String → Option JsonObj) (sim : Simulation) (start : Nat)
    (hWF : WF sim) :
    (∀ out sim2, continue_turn_from responses jparse sim start =
        Except.ok (out, sim2) → WF sim2) ∧
    (∀ e sim2, continue_turn_from responses jparse sim start =
        Except.error (e, sim2) → WF sim2) := by
  unfold continue_turn_from
  by_cases hc : (sim.active_turn_messages.isNone || sim.active_turn_debug.isNone) = true
  · rw [if_pos hc]
    refine ⟨?_, ?_⟩
    · intro out sim2 h2
      cases h2
    · intro e sim2 h2
      simp only [Except.error.injEq, Prod.mk.injEq] at h2
      rw [← h2.2]
      exact hWF
  · rw [if_neg hc]
    exact run_slots_WF responses jparse _ sim hWF

theorem step_WF (responses : Nat → String) (jparse : String → Option JsonObj)
    (sim : Simulation) (hWF : WF sim) :
    (∀ out sim2, step responses jparse sim = Except.ok (out, sim2) → WF sim2) ∧
    (∀ e sim2, step responses jparse sim = Except.error (e, sim2) → WF sim2) := by
  unfold step
  by_cases he : sim.agents.isEmpty = true
  · rw [if_pos he]
    refine ⟨?_, ?_⟩
    · intro out sim2 h2
      cases h2
    · intro e sim2 h2
      simp only [Except.error.injEq, Prod.mk.injEq] at h2
      rw [← h2.2]
      exact hWF
  · rw [if_neg he]
    by_cases hp : sim.pending_player.isSome = true
    · rw [if_pos hp]
      refine ⟨?_, ?_⟩
      · intro out sim2 h2
        cases h2
      · intro e sim2 h2
        simp only [Except.error.injEq, Prod.mk.injEq] at h2
        rw [← h2.2]
        exact hWF
    · rw [if_neg hp]
      exact continue_turn_from_WF responses jparse _ 0 (WF_of_fields hWF rfl rfl)

theorem apply_player_action_WF (responses : Nat → String)
    (jparse : String → Option JsonObj) (sim : Simulation) (action : Json)
    (hWF : WF sim) :
    (∀ out sim2, apply_player_action responses jparse sim action =
        Except.ok (out, sim2) → WF sim2) ∧
    (∀ e sim2, apply_player_action responses jparse sim action =
        Except.error (e, sim2) → WF sim2) := by
  unfold apply_player_action
  cases hpp : sim.pending_player with
  | none =>
    dsimp only
    refine ⟨?_, ?_⟩
    · intro out sim2 h2
      cases h2
    · intro e sim2 h2
      simp only [Except.error.injEq, Prod.mk.injEq] at h2
      rw [← h2.2]
      exact hWF
  | some info =>
    dsimp only
    by_cases hc : (sim.active_turn_messages.isNone || sim.active_turn_debug.isNone) = true
    · rw [if_pos hc]
      refine ⟨?_, ?_⟩
      · intro out sim2 h2
        cases h2
      · intro e sim2 h2
        simp only [Except.error.injEq, Prod.mk.injEq] at h2
        rw [← h2.2]
        exact hWF
    · rw [if_neg hc]
      have hWF1 : WF ({ sim with pending_player := none } : Simulation) :=
        WF_of_fields hWF rfl rfl
      cases hag : ({ sim with pending_player := none } : Simulation).agents[info.agent_index]? with
      | none =>
        refine ⟨?_, ?_⟩
        · intro out sim2 h2
          cases h2
        · intro e sim2 h2
          simp only [Except.error.injEq, Prod.mk.injEq] at h2
          rw [← h2.2]
          exact hWF1
      | some agent =>
        cases hv : validate_player_action action info.legal_actions agent.name with
        | error msg =>
          refine ⟨?_, ?_⟩
          · intro out sim2 h2
            simp only [hv, reduceCtorEq] at h2
          · intro e sim2 h2
            simp only [hag, hv, Except.error.injEq, Prod.mk.injEq] at h2
            rw [← h2.2]
            exact hWF1
        | ok validated =>
          dsimp only
          have hWF2 : WF { sim with pending_player := none, agents := sim.agents.set info.agent_index { agent with last_action := some validated } } :=
            agentsOK_set_same sim.grid_size sim.agents info.agent_index agent
              { agent with last_action := some validated } hag rfl rfl rfl hWF.1 hWF.2
          cases hdg : (sim.active_turn_debug.getD [])[info.agent_index]? with
          | none =>
            refine ⟨?_, ?_⟩
            · intro out sim2 h2
              simp only [hv, hdg, reduceCtorEq] at h2
            · intro e sim2 h2
              simp only [hv, hdg, Except.error.injEq, Prod.mk.injEq] at h2
              rw [← h2.2]
              exact hWF2
          | some entry =>
            refine ⟨?_, ?_⟩
            · intro out sim2 h2
              simp only [hv, hdg] at h2
              refine (continue_turn_from_WF responses jparse _ _ ?_).1 out sim2 h2
              exact apply_action_WF _ _ _ _ (WF_of_fields hWF2 rfl rfl)
            · intro e sim2 h2
              simp only [hv, hdg] at h2
              refine (continue_turn_from_WF responses jparse _ _ ?_).2 e sim2 h2
              exact apply_action_WF _ _ _ _ (WF_of_fields hWF2 rfl rfl)

theorem initial_cells_mem (g : Int) (c : Int × Int) (hc : c ∈ initial_cells g) :
    0 ≤ c.1 ∧ c.1 < g ∧ 0 ≤ c.2 ∧ c.2 < g := by
  simp only [initial_cells, List.mem_flatMap, List.mem_map, List.mem_range] at hc
  obtain ⟨x, hx, y, hy, rfl⟩ := hc
  dsimp only
  rw [Int.ofNat_eq_natCast, Int.ofNat_eq_natCast]
  omega

theorem initial_cells_nodup (g : Int) : (initial_cells g).Nodup := by
  rw [initial_cells, List.nodup_flatMap]
  constructor
  · intro x _
    refine (List.nodup_range _).map ?_
    intro a b hab
    have h2 := congrArg Prod.snd hab
    dsimp only at h2
    exact Int.ofNat_inj.mp h2
  · have hpw : List.Pairwise (fun a b => a ≠ b) (List.range g.toNat) :=
      (List.nodup_range g.toNat)
    refine hpw.imp ?_
    intro a b hab
    intro c hca hcb
    simp only [List.mem_map, List.mem_range] at hca hcb
    obtain ⟨y1, _, hc1⟩ := hca
    obtain ⟨y2, _, hc2⟩ := hcb
    have := congrArg Prod.fst (hc1.trans hc2.symm)
    dsimp only at this
    exact hab (Int.ofNat_inj.mp this)

theorem initial_cells_length (g : Int) :
    (initial_cells g).length = g.toNat * g.toNat := by
  rw [initial_cells]
  rw [List.length_flatMap]
  simp [Function.comp_def, List.map_const', List.sum_replicate, smul_eq_mul]

theorem lookup_zip_some {β : Type} :
    ∀ (ks : List String) (vs : List β), ks.Nodup →
      ∀ i (hi : i < ks.length) (hv : i < vs.length),
        (ks.zip vs).lookup ks[i] = some vs[i] := by
  intro ks
  induction ks with
  | nil =>
    intro vs _ i hi
    simp at hi
  | cons k ks ih =>
    intro vs hk i hi hv
    cases vs with
    | nil => simp at hv
    | cons v vs =>
      cases i with
      | zero => simp [List.zip_cons_cons, List.lookup]
      | succ j =>
        have hj : j < ks.length := by simpa using hi
        have hkn : k ∉ ks := (List.nodup_cons.mp hk).1
        have hne : ks[j] ≠ k := fun hc => hkn (hc ▸ List.getElem_mem hj)
        have hbeq : (ks[j] == k) = false := by simp [hne]
        simp only [List.zip_cons_cons, List.getElem_cons_succ, List.lookup, hbeq]
        exact ih vs (List.nodup_cons.mp hk).2 j hj (by simpa using hv)

theorem lookup_zip_none {β : Type} :
    ∀ (ks : List String) (vs : List β), ks.Nodup →
      ∀ i (hi : i < ks.length), vs.length ≤ i →
        (ks.zip vs).lookup ks[i] = none := by
  intro ks
  induction ks with
  | nil =>
    intro vs _ i hi
    simp at hi
  | cons k ks ih =>
    intro vs hk i hi hlen
    cases vs with
    | nil => simp [List.zip_nil_right, List.lookup]
    | cons v vs =>
      cases i with
      | zero => simp at hlen
      | succ j =>
        have hj : j < ks.length := by simpa using hi
        have hkn : k ∉ ks := (List.nodup_cons.mp hk).1
        have hne : ks[j] ≠ k := fun hc => hkn (hc ▸ List.getElem_mem hj)
        have hbeq : (ks[j] == k) = false := by simp [hne]
        simp only [List.zip_cons_cons, List.getElem_cons_succ, List.lookup, hbeq]
        exact ih vs (List.nodup_cons.mp hk).2 j hj (by simpa using hlen)

theorem mapM_option_spec {α β : Type} (f : α → Option β) :
    ∀ (l : List α) (res : List β), l.mapM f = some res →
      res.length = l.length ∧
      ∀ i (hi : i < l.length) (hr : i < res.length), f l[i] = some res[i] := by
  intro l
  induction l with
  | nil =>
    intro res h
    simp only [List.mapM_nil, Option.pure_def, Option.some.injEq] at h
    subst h
    exact ⟨rfl, by intro i hi; simp at hi⟩
  | cons a l ih =>
    intro res h
    rw [List.mapM_cons] at h
    cases hfa : f a with
    | none => rw [hfa] at h; simp at h
    | some b =>
      rw [hfa] at h
      cases hml : l.mapM f with
      | none => rw [hml] at h; simp at h
      | some bs =>
        rw [hml] at h
        simp only [Option.bind_eq_bind, Option.some_bind, Option.pure_def,
          Option.some.injEq] at h
        subst h
        obtain ⟨hlen, hidx⟩ := ih bs hml
        refine ⟨by simp [hlen], ?_⟩
        intro i hi hr
        cases i with
        | zero => simpa using hfa
        | succ j =>
          exact hidx j (by simpa using hi) (by simpa using hr)

theorem mapM_option_none {α β : Type} (f : α → Option β) :
    ∀ (l : List α) (a : α), a ∈ l → f a = none → l.mapM f = none := by
  intro l
  induction l with
  | nil =>
    intro a ha
    simp at ha
  | cons b l ih =>
    intro a ha hfa
    rw [List.mapM_cons]
    rcases List.mem_cons.mp ha with rfl | hmem
    · rw [hfa]
      rfl
    · cases hfb : f b with
      | none => rfl
      | some v =>
        rw [ih a hmem hfa]
        rfl

theorem reset_WF (cfg : Config) (shuffled : List (Int × Int))
    (hperm : shuffled.Perm (initial_cells cfg.grid_size)) (sim : Simulation)
    (hok : reset cfg shuffled = Except.ok sim) : WF sim := by
  simp only [reset] at hok
  split at hok
  · cases hok
  · rename_i agents hM
    injection hok with hsim
    subst hsim
    have hnnd : (agent_names cfg.num_agents).Nodup := agent_names_nodup _
    have hsp : (List.insertionSort (fun a b => pyStrLe a b = true)
        (agent_names cfg.num_agents)).Perm (agent_names cfg.num_agents) :=
      List.perm_insertionSort _ _
    have hsnd : (List.insertionSort (fun a b => pyStrLe a b = true)
        (agent_names cfg.num_agents)).Nodup := hsp.nodup_iff.mpr hnnd
    have hshnd : shuffled.Nodup := hperm.nodup_iff.mpr (initial_cells_nodup _)
    obtain ⟨hlen, hidx⟩ := mapM_option_spec _ _ _ hM
    have hchar : ∀ i a, agents[i]? = some a →
        ∃ p, ∃ hp : p < (agent_names cfg.num_agents).length, ∃ hps : p < shuffled.length,
          (agent_names cfg.num_agents).get ⟨p, hp⟩ = a.name ∧
          (∃ hs : i < (List.insertionSort (fun a b => pyStrLe a b = true)
              (agent_names cfg.num_agents)).length,
            (List.insertionSort (fun a b => pyStrLe a b = true)
              (agent_names cfg.num_agents)).get ⟨i, hs⟩ = a.name) ∧
          shuffled.get ⟨p, hps⟩ = (a.x, a.y) := by
      intro i a hia
      obtain ⟨hi, hga⟩ := List.getElem?_eq_some.mp hia
      have hs : i < (List.insertionSort (fun a b => pyStrLe a b = true)
          (agent_names cfg.num_agents)).length := by omega
      have hfi := hidx i (by omega) hi
      cases hlook : (((agent_names cfg.num_agents).zip shuffled).lookup
          (List.insertionSort (fun a b => pyStrLe a b = true)
            (agent_names cfg.num_agents))[i]) with
      | none =>
        rw [hlook] at hfi
        exact absurd hfi (by simp)
      | some c =>
        rw [hlook] at hfi
        simp only [Option.map_some, Option.map_some', Option.some.injEq] at hfi
        have hmem : (List.insertionSort (fun a b => pyStrLe a b = true)
            (agent_names cfg.num_agents))[i] ∈ agent_names cfg.num_agents :=
          hsp.subset (List.getElem_mem hs)
        obtain ⟨p, hp, hnp⟩ := List.mem_iff_getElem.mp hmem
        by_cases hps : p < shuffled.length
        · have hfa := hfi.trans hga
          refine ⟨p, hp, hps, ?_, ⟨hs, ?_⟩, ?_⟩
          · rw [List.get_eq_getElem, hnp, ← hfa]
          · rw [List.get_eq_getElem, ← hfa]
          · have hlz := lookup_zip_some (agent_names cfg.num_agents) shuffled hnnd p hp hps
            rw [hnp, hlook] at hlz
            injection hlz with hc
            rw [List.get_eq_getElem, ← hc, ← hfa]
        · have hlz := lookup_zip_none (agent_names cfg.num_agents) shuffled hnnd p hp (by omega)
          rw [hnp, hlook] at hlz
          cases hlz
    constructor
    · intro a ha
      obtain ⟨i, hi, hga⟩ := List.mem_iff_getElem.mp ha
      obtain ⟨p, hp, hps, _, _, hcell⟩ :=
        hchar i a (by rw [List.getElem?_eq_getElem hi, hga])
      have hcm : shuffled.get ⟨p, hps⟩ ∈ shuffled := List.get_mem shuffled p hps
      rw [hcell] at hcm
      have hbounds := initial_cells_mem cfg.grid_size _ (hperm.subset hcm)
      exact ⟨hbounds.1, hbounds.2.1, hbounds.2.2.1, hbounds.2.2.2⟩
    · rw [distinctAgents, List.pairwise_iff_getElem]
      intro i j hi hj hij
      obtain ⟨pi, hpi, hpsi, hnpi, ⟨hsi, hsni⟩, hcelli⟩ :=
        hchar i (agents[i]) (List.getElem?_eq_getElem hi)
      obtain ⟨pj, hpj, hpsj, hnpj, ⟨hsj, hsnj⟩, hcellj⟩ :=
        hchar j (agents[j]) (List.getElem?_eq_getElem hj)
      have hnames_ne : (agents[i]).name ≠ (agents[j]).name := by
        intro hc
        have h2 : (List.insertionSort (fun a b => pyStrLe a b = true)
              (agent_names cfg.num_agents)).get ⟨i, hsi⟩ =
            (List.insertionSort (fun a b => pyStrLe a b = true)
              (agent_names cfg.num_agents)).get ⟨j, hsj⟩ := by
          rw [hsni, hsnj, hc]
        rw [List.get_eq_getElem, List.get_eq_getElem] at h2
        exact (by omega : i ≠ j) ((hsnd.getElem_inj_iff).mp h2)
      refine ⟨hnames_ne, ?_⟩
      have hp_ne : pi ≠ pj := by
        intro hc
        subst hc
        apply hnames_ne
        rw [← hnpi, ← hnpj]
      intro hc
      have h2 : shuffled.get ⟨pi, hpsi⟩ = shuffled.get ⟨pj, hpsj⟩ := by
        rw [hcelli, hcellj, hc]
      rw [List.get_eq_getElem, List.get_eq_getElem] at h2
      exact hp_ne ((hshnd.getElem_inj_iff).mp h2)

/-- Every reachable state satisfies the board invariant. -/
theorem reachable_WF (sim : Simulation) (h : Reachable sim) : WF sim := by
  induction h with
  | of_reset cfg shuffled hperm s hok => exact reset_WF cfg shuffled hperm s hok
  | of_step_ok responses jparse s out s2 hr hst ih =>
    exact (step_WF responses jparse s ih).1 out s2 hst
  | of_step_err responses jparse s e s2 hr hst ih =>
    exact (step_WF responses jparse s ih).2 e s2 hst
  | of_player_ok responses jparse s action out s2 hr hst ih =>
    exact (apply_player_action_WF responses jparse s action ih).1 out s2 hst
  | of_player_err responses jparse s action e s2 hr hst ih =>
    exact (apply_player_action_WF responses jparse s action ih).2 e s2 hst

/-- Claim C3: in every state reachable by reset, step and
apply_player_action, every agent position (x, y) satisfies
0 ≤ x < grid_size and 0 ≤ y < grid_size, and no two agents occupy the
same cell. -/
theorem claim_C3_board_invariant (sim : Simulation) (h : Reachable sim) :
    (∀ a ∈ sim.agents,
      0 ≤ a.x ∧ a.x < sim.grid_size ∧ 0 ≤ a.y ∧ a.y < sim.grid_size) ∧
    sim.agents.Pairwise (fun a b => (a.x, a.y) ≠ (b.x, b.y)) := by
  have hWF := reachable_WF sim h
  exact ⟨fun a ha => hWF.1 a ha, List.Pairwise.imp (fun hab => hab.2) hWF.2⟩

theorem claim_C3_witness :
    Reachable simDuo ∧
    ((∀ a ∈ simDuo.agents,
        0 ≤ a.x ∧ a.x < simDuo.grid_size ∧ 0 ≤ a.y ∧ a.y < simDuo.grid_size) ∧
      simDuo.agents.Pairwise (fun a b => (a.x, a.y) ≠ (b.x, b.y))) :=
  have hr : Reachable simDuo :=
    Reachable.of_reset cfgDuo (initial_cells cfgDuo.grid_size)
      (List.Perm.refl _) simDuo (by rfl)
  ⟨hr, claim_C3_board_invariant simDuo hr⟩

/-! ## Reset capacity (C10) -/

theorem mapM_option_some {α β : Type} (f : α → Option β) :
    ∀ l : List α, (∀ x ∈ l, ∃ y, f x = some y) → ∃ res, l.mapM f = some res := by
  intro l
  induction l with
  | nil => intro _; exact ⟨[], rfl⟩
  | cons x xs ih =>
    intro h
    obtain ⟨y, hy⟩ := h x (List.mem_cons_self x xs)
    obtain ⟨res, hres⟩ := ih (fun z hz => h z (List.mem_cons_of_mem x hz))
    refine ⟨y :: res, ?_⟩
    simp only [List.mapM_cons, Option.bind_eq_bind, hy, Option.some_bind, hres,
      Option.pure_def]

theorem agent_names_length (n : Nat) : (agent_names n).length = n := by
  simp [agent_names]

/-- Claim C10: with the shuffled cell list a permutation of the grid
cells, reset succeeds exactly when the agents fit on the grid.  When
num_agents ≤ grid_size², every agent gets a distinct in-bounds starting
cell; when num_agents > grid_size², the position lookup for a surplus
agent fails and reset raises KeyError. -/
theorem claim_C10_reset_capacity (cfg : Config) (shuffled : List (Int × Int))
    (hperm : shuffled.Perm (initial_cells cfg.grid_size)) :
    (cfg.num_agents ≤ cfg.grid_size.toNat * cfg.grid_size.toNat →
      ∃ sim, reset cfg shuffled = Except.ok sim ∧
        sim.agents.length = cfg.num_agents ∧
        (∀ a ∈ sim.agents,
          0 ≤ a.x ∧ a.x < cfg.grid_size ∧ 0 ≤ a.y ∧ a.y < cfg.grid_size) ∧
        sim.agents.Pairwise (fun a b => (a.x, a.y) ≠ (b.x, b.y))) ∧
    (cfg.grid_size.toNat * cfg.grid_size.toNat < cfg.num_agents →
      reset cfg shuffled = Except.error "KeyError") := by
  have hshlen : shuffled.length = cfg.grid_size.toNat * cfg.grid_size.toNat := by
    rw [hperm.length_eq, initial_cells_length]
  have hnnd := agent_names_nodup cfg.num_agents
  have hanl := agent_names_length cfg.num_agents
  constructor
  · intro hle
    have hall : ∀ x ∈ List.insertionSort (fun a b => pyStrLe a b = true)
        (agent_names cfg.num_agents),
        ∃ y, ((((agent_names cfg.num_agents).zip shuffled).lookup x).map
          (fun p => ({ name := x, isPlayer := player_name_of cfg = some x,
                       x := p.1, y := p.2 } : AgentState))) = some y := by
      intro x hx
      have hmem : x ∈ agent_names cfg.num_agents :=
        (List.perm_insertionSort _ _).subset hx
      obtain ⟨p, hp, hnp⟩ := List.mem_iff_getElem.mp hmem
      have hps : p < shuffled.length := by rw [hshlen]; rw [hanl] at hp; omega
      have hlz := lookup_zip_some (agent_names cfg.num_agents) shuffled hnnd p hp hps
      rw [hnp] at hlz
      exact ⟨_, by rw [hlz]; rfl⟩
    obtain ⟨agents, hM⟩ := mapM_option_some _ _ hall
    cases hres : reset cfg shuffled with
    | error e =>
      exfalso
      simp only [reset, hM] at hres
      cases hres
    | ok sim =>
      have hWF := reset_WF cfg shuffled hperm sim hres
      have hag : sim.agents = agents := by
        simp only [reset, hM] at hres
        injection hres with h
        rw [← h]
      have hgs : sim.grid_size = cfg.grid_size := by
        simp only [reset, hM] at hres
        injection hres with h
        rw [← h]
      refine ⟨sim, rfl, ?_, ?_, ?_⟩
      · rw [hag, (mapM_option_spec _ _ _ hM).1,
          (List.perm_insertionSort _ _).length_eq]
        exact hanl
      · intro a ha
        have hb := hWF.1 a ha
        rw [hgs] at hb
        exact hb
      · exact List.Pairwise.imp (fun hab => hab.2) hWF.2
  · intro hgt
    have hp : shuffled.length < (agent_names cfg.num_agents).length := by
      rw [hshlen, hanl]; omega
    have hlz := lookup_zip_none (agent_names cfg.num_agents) shuffled hnnd
      shuffled.length hp (le_refl _)
    have hmem : (agent_names cfg.num_agents)[shuffled.length] ∈
        List.insertionSort (fun a b => pyStrLe a b = true)
          (agent_names cfg.num_agents) :=
      (List.perm_insertionSort _ _).mem_iff.mpr (List.getElem_mem hp)
    have hM := mapM_option_none
      (fun name => ((((agent_names cfg.num_agents).zip shuffled).lookup name).map
        (fun p => ({ name := name, isPlayer := player_name_of cfg = some name,
                     x := p.1, y := p.2 } : AgentState))))
      _ _ hmem (by simp only [hlz, Option.map_none'])
    simp only [reset, hM]

theorem claim_C10_witness :
    ((initial_cells cfgDuo.grid_size).Perm (initial_cells cfgDuo.grid_size) ∧
      cfgDuo.num_agents ≤ cfgDuo.grid_size.toNat * cfgDuo.grid_size.toNat ∧
      ∃ sim, reset cfgDuo (initial_cells cfgDuo.grid_size) = Except.ok sim ∧
        sim.agents.length = cfgDuo.num_agents ∧
        (∀ a ∈ sim.agents,
          0 ≤ a.x ∧ a.x < cfgDuo.grid_size ∧ 0 ≤ a.y ∧ a.y < cfgDuo.grid_size) ∧
        sim.agents.Pairwise (fun a b => (a.x, a.y) ≠ (b.x, b.y))) ∧
    ((initial_cells cfgBig.grid_size).Perm (initial_cells cfgBig.grid_size) ∧
      cfgBig.grid_size.toNat * cfgBig.grid_size.toNat < cfgBig.num_agents ∧
      reset cfgBig (initial_cells cfgBig.grid_size) = Except.error "KeyError") :=
  ⟨⟨List.Perm.refl _, by decide,
    (claim_C10_reset_capacity cfgDuo (initial_cells cfgDuo.grid_size)
      (List.Perm.refl _)).1 (by decide)⟩,
   ⟨List.Perm.refl _, by decide,
    (claim_C10_reset_capacity cfgBig (initial_cells cfgBig.grid_size)
      (List.Perm.refl _)).2 (by decide)⟩⟩
